import Mathlib

/-!
Verification development for the Blender "Project and Mirror Ops" repository.

The development shallowly embeds the two geometry engines of the repository:
the mesh mirroring engine (`src/mesh_mirror_script.py`) and the parts of the
UV surface projection engine that live in `src/2.8/projection_ops/proj_data.py`.

Modelling conventions:
* Python floats are modelled as exact rationals (`ℚ`); every claim below is
  about control flow or exact algebraic identities, never about rounding.
* Python `ZeroDivisionError` (float division by exactly `0.0` raises in
  Python) is modelled with `Except Unit`: `.error ()` marks a raised
  exception.
* Mutable mesh state (vertex coordinates, per-vertex search records, the
  `face.tag` visited flags) is threaded explicitly through an `EState`
  record.  An exception aborts the whole operator invocation in Python, so
  the state record carries an `err` flag after which every engine step is a
  no-op.
* Vertices and faces are addressed by their stable index (Python passes the
  BMesh element objects around; `elem.index` is the same index).
-/

/-- 3D vector over exact rationals (models `mathutils.Vector` of length 3). -/
structure Vec3 where
  x : ℚ
  y : ℚ
  z : ℚ
deriving DecidableEq, Repr

instance : Inhabited Vec3 := ⟨⟨0, 0, 0⟩⟩

def Vec3.add (a b : Vec3) : Vec3 := ⟨a.x + b.x, a.y + b.y, a.z + b.z⟩

def Vec3.sub (a b : Vec3) : Vec3 := ⟨a.x - b.x, a.y - b.y, a.z - b.z⟩

def Vec3.smul (q : ℚ) (a : Vec3) : Vec3 := ⟨q * a.x, q * a.y, q * a.z⟩

instance : Add Vec3 := ⟨Vec3.add⟩

instance : Sub Vec3 := ⟨Vec3.sub⟩

instance : SMul ℚ Vec3 := ⟨Vec3.smul⟩

@[simp] theorem Vec3.add_def (a b : Vec3) :
    a + b = ⟨a.x + b.x, a.y + b.y, a.z + b.z⟩ := rfl

@[simp] theorem Vec3.sub_def (a b : Vec3) :
    a - b = ⟨a.x - b.x, a.y - b.y, a.z - b.z⟩ := rfl

@[simp] theorem Vec3.smul_def (q : ℚ) (a : Vec3) :
    q • a = ⟨q * a.x, q * a.y, q * a.z⟩ := rfl

/-- Dot product (`Vector.dot`). -/
def Vec3.dot (a b : Vec3) : ℚ := a.x * b.x + a.y * b.y + a.z * b.z

/-- Cross product (`Vector.cross`, used by `zUpFindAxis`). -/
def Vec3.cross (a b : Vec3) : Vec3 :=
  ⟨a.y * b.z - a.z * b.y, a.z * b.x - a.x * b.z, a.x * b.y - a.y * b.x⟩

/-- Squared Euclidean length.  The Python engine compares Euclidean lengths
(`Vector.length`); all such comparisons are between nonnegative values, so the
embedding stores and compares squared lengths, which induces exactly the same
order. -/
def Vec3.lenSq (a : Vec3) : ℚ := a.dot a

/-- 2D vector over exact rationals (UV coordinates). -/
structure Vec2 where
  x : ℚ
  y : ℚ
deriving DecidableEq, Repr

instance : Inhabited Vec2 := ⟨⟨0, 0⟩⟩

def Vec2.add (a b : Vec2) : Vec2 := ⟨a.x + b.x, a.y + b.y⟩

def Vec2.sub (a b : Vec2) : Vec2 := ⟨a.x - b.x, a.y - b.y⟩

def Vec2.smul (q : ℚ) (a : Vec2) : Vec2 := ⟨q * a.x, q * a.y⟩

instance : Add Vec2 := ⟨Vec2.add⟩

instance : Sub Vec2 := ⟨Vec2.sub⟩

instance : SMul ℚ Vec2 := ⟨Vec2.smul⟩

@[simp] theorem Vec2.add2_def (a b : Vec2) : a + b = ⟨a.x + b.x, a.y + b.y⟩ := rfl

@[simp] theorem Vec2.sub2_def (a b : Vec2) : a - b = ⟨a.x - b.x, a.y - b.y⟩ := rfl

@[simp] theorem Vec2.smul2_def (q : ℚ) (a : Vec2) : q • a = ⟨q * a.x, q * a.y⟩ := rfl

/-- A mesh vertex as read by the engines: a position and a normal. -/
structure MVert where
  co : Vec3
  normal : Vec3
deriving DecidableEq, Repr

instance : Inhabited MVert := ⟨⟨default, default⟩⟩

/-- A triangulated face: three vertices plus the face normal
(`face.verts[0..2]`, `face.normal`). -/
structure MTri where
  v0 : MVert
  v1 : MVert
  v2 : MVert
  normal : Vec3
deriving DecidableEq, Repr

instance : Inhabited MTri := ⟨⟨default, default, default, default⟩⟩

/-- `largeFloat` constant of `mesh_mirror_script.py` (line 40). -/
def largeFloat : ℚ := 10000000

/-- The static settings of the mirror operator (`MirrorMesh.bias`,
`smoothed`, `cull`, `closestOnly`, `onlyIntersecting`, set in `execute`). -/
structure MSettings where
  bias : ℚ
  smoothed : Bool
  cull : Bool
  closestOnly : Bool
  onlyIntersecting : Bool
deriving DecidableEq, Repr

/-- `MirrorMesh.biasNeg` (line 69/79). -/
def MSettings.biasNeg (S : MSettings) : ℚ := -S.bias

/-- Intersection record towards one mirror-mesh triangle (`MirrorData`).
The `_n` field of the Python class is never read and is omitted; the
`_mirrorTri` face reference is modelled by the face's index. -/
structure MirrorData where
  mirrorTri : ℕ
  intersected : Bool
  t : ℚ
  u : ℚ
  v : ℚ
  w : ℚ
deriving DecidableEq, Repr

/-- `MirrorMesh.triIntersection` (lines 278-307).  Returns `.ok none` for the
Python `return None` (backface culled), `.ok (some _)` for a constructed
`MirrorData`, and `.error ()` when Python would raise `ZeroDivisionError`
(the code performs the divisions unguarded). -/
def triIntersection (S : MSettings) (triIdx : ℕ) (vertCo : Vec3) (tri : MTri) :
    Except Unit (Option MirrorData) :=
  let t := tri.normal.dot (vertCo - tri.v0.co)
  if S.cull ∧ t < 0 then .ok none
  else
    let den0 := tri.normal.dot tri.v0.normal
    if den0 = 0 then .error ()
    else
      let p0 := (t / den0) • tri.v0.normal + tri.v0.co
      let den1 := tri.normal.dot tri.v1.normal
      if den1 = 0 then .error ()
      else
        let p1 := (t / den1) • tri.v1.normal + tri.v1.co
        let den2 := tri.normal.dot tri.v2.normal
        if den2 = 0 then .error ()
        else
          let p2 := (t / den2) • tri.v2.normal + tri.v2.co
          let e0 := p1 - p0
          let e1 := p2 - p0
          let e2 := vertCo - p0
          let d00 := e0.dot e0
          let d01 := e0.dot e1
          let d11 := e1.dot e1
          let d20 := e2.dot e0
          let d21 := e2.dot e1
          let den := d00 * d11 - d01 * d01
          if den = 0 then .error ()
          else
            let invDenom := 1 / den
            let vv := (d11 * d20 - d01 * d21) * invDenom
            let ww := (d00 * d21 - d01 * d20) * invDenom
            let uu := 1 - vv - ww
            .ok (some ⟨triIdx,
              decide (uu > S.biasNeg ∧ vv > S.biasNeg ∧ ww > S.biasNeg),
              t, uu, vv, ww⟩)

/-- Default operator settings (property defaults of the Blender operator). -/
def defaultMSettings : MSettings :=
  ⟨1 / 10000, true, false, false, true⟩

/-- The mirror (reference) mesh: its triangulated faces and, per face, the
list of faces reachable through `face.edges[*].link_faces` in iteration order
(`queueConnectedFaces` enumerates exactly this list; it includes the face
itself, as `edge.link_faces` does in Blender). -/
structure MMesh where
  faces : List MTri
  adj : List (List ℕ)
deriving DecidableEq, Repr

/-- Face lookup by index. -/
def MMesh.tri (MM : MMesh) (i : ℕ) : MTri := MM.faces.getD i default

/-- The source mesh to be mirrored: vertex positions and, per vertex, the
list of vertices reachable through `vert.link_edges[*].other_vert` in
iteration order. -/
structure SMesh where
  verts : List Vec3
  nbrs : List (List ℕ)
deriving DecidableEq, Repr

/-- Per-vertex search record (`SearchData`, lines 392-412).  `closeDistSq`
stores the squared distance (the Python `_closeDistance` stores the length;
both `<` comparisons order identically on nonnegative values), initialised to
`largeFloat ^ 2` accordingly. -/
structure SearchRec where
  closeDistSq : ℚ
  closeVert : Option ℕ
  mirrorData : Option MirrorData
deriving DecidableEq, Repr

def defaultSearchRec : SearchRec := ⟨largeFloat ^ 2, none, none⟩

instance : Inhabited SearchRec := ⟨defaultSearchRec⟩

/-- `SearchData.setClosestMirror` (lines 406-409), on the stored record. -/
def setClosestMirror (cur : Option MirrorData) (d : MirrorData) : Option MirrorData :=
  match cur with
  | none => some d
  | some c => if d.t < c.t then some d else some c

/-- The mutable state of one mirror-engine invocation: the source-mesh vertex
positions, the per-vertex search records, and the mirror-mesh `face.tag`
flags (as the list of currently tagged face indices).  `err` is set when the
Python code would have raised; every later step is then a no-op.  `mcount` is
instrumentation only: it counts, per vertex, how many times `mirrorVert`
moved that vertex (the Python code has no such counter; nothing in the
embedded control flow reads it). -/
structure EState where
  err : Bool
  verts : List Vec3
  search : List SearchRec
  tags : List ℕ
  mcount : List ℕ
deriving DecidableEq, Repr

/-- Replace vertex `i`'s stored mirror record (`SearchData.setMirror` /
the net effect of `findClosestTri` on the record). -/
def setRecord (s : EState) (i : ℕ) (od : Option MirrorData) : EState :=
  { s with search := s.search.set i ({ s.search.getD i default with mirrorData := od }) }

/-- `MirrorData.calcFlatMirrorVector` (lines 431-432). -/
def calcFlatMirrorVector (MM : MMesh) (d : MirrorData) : Vec3 :=
  (-(2 : ℚ) * d.t) • (MM.tri d.mirrorTri).normal

/-- `MirrorData.calcSmoothMirrorVector` (lines 427-429); the division by
`mirrorTri.normal.dot(norm)` is unguarded in Python. -/
def calcSmoothMirrorVector (MM : MMesh) (d : MirrorData) : Except Unit Vec3 :=
  let tri := MM.tri d.mirrorTri
  let nrm := (d.u • tri.v0.normal) + (d.v • tri.v1.normal) + (d.w • tri.v2.normal)
  let den := tri.normal.dot nrm
  if den = 0 then .error ()
  else .ok ((-(2 : ℚ) * d.t / den) • nrm)

/-- The displacement vector chosen by `MirrorMesh.mirrorVert`
(lines 186-189): flat unless smoothing is on and no flat mirror is forced. -/
def mirrorVertVec (S : MSettings) (MM : MMesh) (d : MirrorData)
    (forceFlatMirror : Bool) : Except Unit Vec3 :=
  if ¬S.smoothed ∨ forceFlatMirror then .ok (calcFlatMirrorVector MM d)
  else calcSmoothMirrorVector MM d

/-- `MirrorMesh.mirrorVert` (lines 184-191) as a state step on vertex `i`. -/
def mirrorVertSt (S : MSettings) (MM : MMesh) (i : ℕ) (d : MirrorData)
    (forceFlatMirror : Bool) (s : EState) : EState :=
  if s.err then s
  else
    match mirrorVertVec S MM d forceFlatMirror with
    | .error _ => { s with err := true }
    | .ok vec =>
        { s with
          verts := s.verts.set i (s.verts.getD i default + vec),
          mcount := s.mcount.set i (s.mcount.getD i 0 + 1) }

/-- Inner fold of `MirrorMesh.queueConnectedVerts` (lines 309-321) over the
connected vertices of vertex `vi`. -/
def queueConnectedVertsGo (vi : ℕ) (viCo : Vec3) :
    List ℕ → EState → List ℕ → EState × List ℕ
  | [], s, q => (s, q)
  | c :: rest, s, q =>
      let rec0 := s.search.getD c default
      match rec0.mirrorData with
      | none =>
        let q' := q ++ [c]
        let distSq := (viCo - s.verts.getD c default).lenSq
        let rec1 := { rec0 with closeDistSq := distSq, closeVert := some vi }
        let s' :=
          if distSq < rec0.closeDistSq then
            { s with search := s.search.set c rec1 }
          else s
        queueConnectedVertsGo vi viCo rest s' q'
      | some _ => queueConnectedVertsGo vi viCo rest s q

/-- `MirrorMesh.queueConnectedVerts` (lines 309-321). -/
def queueConnectedVerts (nbrs : List (List ℕ)) (vi : ℕ) (s : EState)
    (q : List ℕ) : EState × List ℕ :=
  if s.err then (s, q)
  else queueConnectedVertsGo vi (s.verts.getD vi default) (nbrs.getD vi []) s q

/-- Inner loop of `MirrorMesh.queueConnectedFaces` over the faces adjacent
to the current face. -/
def queueConnectedFacesGo : List ℕ → List ℕ → List ℕ → List ℕ →
    List ℕ × List ℕ × List ℕ
  | [], q, tg, tl => (q, tg, tl)
  | of :: rest, q, tg, tl =>
      if of ∈ tg then queueConnectedFacesGo rest q tg tl
      else queueConnectedFacesGo rest (q ++ [of]) (of :: tg) (tl ++ [of])

/-- `MirrorMesh.queueConnectedFaces` (lines 323-333): enqueue and tag every
untagged face adjacent to `f`. -/
def queueConnectedFaces (MM : MMesh) (f : ℕ) (queue tags tagList : List ℕ) :
    List ℕ × List ℕ × List ℕ :=
  queueConnectedFacesGo (MM.adj.getD f []) queue tags tagList

/-- The `while not faceQueue.empty()` loop of `MirrorMesh.findFirstTri`
(lines 249-256), fuelled.  Returns the intersecting record found (if any)
together with the final tag state and tag list. -/
def findFirstTriLoop (S : MSettings) (MM : MMesh) (vertCo : Vec3)
    (fuel : ℕ) (queue tags tagList : List ℕ) :
    Except Unit (Option MirrorData × List ℕ × List ℕ) :=
  if _h : fuel = 0 then .ok (none, tags, tagList)
  else
    match queue with
    | [] => .ok (none, tags, tagList)
    | f :: q =>
        match triIntersection S f vertCo (MM.tri f) with
        | .error e => .error e
        | .ok r =>
            if (match r with | some d => d.intersected | none => false) then
              .ok (r, tags, tagList)
            else
              let (q', tags', tl') := queueConnectedFaces MM f q tags tagList
              findFirstTriLoop S MM vertCo (fuel - 1) q' tags' tl'
termination_by fuel
decreasing_by omega

/-- Fuel bound for the face BFS: every enqueue is guarded by the tag check,
so the queue can never receive more entries than the start face plus the
total length of all adjacency lists. -/
def MMesh.fuel (MM : MMesh) : ℕ := (MM.adj.map List.length).sum + 2

/-- `MirrorMesh.findFirstTri` (lines 235-259): tag and enqueue the start
face, run the BFS loop, then clear the tag of every face in the tag list.
On a Python exception (`.error`) the clearing loop is skipped. -/
def findFirstTri (S : MSettings) (MM : MMesh) (vertCo : Vec3)
    (lastMFace : ℕ) (tags0 : List ℕ) :
    Except Unit (Option MirrorData × List ℕ) :=
  match findFirstTriLoop S MM vertCo MM.fuel [lastMFace]
      (lastMFace :: tags0) [lastMFace] with
  | .error e => .error e
  | .ok (r, tags, tagList) => .ok (r, tags.filter (fun t => t ∉ tagList))

/-- The `for tri in mirrorMesh.faces` loop of `MirrorMesh.findClosestTri`
(lines 261-270), folding `setClosestMirror` over the triangles in
enumeration order; a Python exception aborts the loop. -/
def findClosestTriGo (S : MSettings) (vertCo : Vec3) :
    List (ℕ × MTri) → Option MirrorData → Except Unit (Option MirrorData)
  | [], acc => .ok acc
  | (i, tri) :: rest, acc =>
      match triIntersection S i vertCo tri with
      | .error e => .error e
      | .ok r =>
          if (match r with | some d => d.intersected | none => false) then
            match r with
            | some d => findClosestTriGo S vertCo rest (setClosestMirror acc d)
            | none => findClosestTriGo S vertCo rest acc
          else findClosestTriGo S vertCo rest acc

/-- `MirrorMesh.findClosestTri` (lines 261-270): the net effect on the
vertex's stored record (which is `none` at every call site, guarded by
`notMirrored`). -/
def findClosestTri (S : MSettings) (MM : MMesh) (vertCo : Vec3) :
    Except Unit (Option MirrorData) :=
  findClosestTriGo S vertCo MM.faces.enum none

/-- `MirrorMesh.findDistance` (lines 272-275): flat plane distance record
against face `mTriIdx` (no intersection test, `_intersected = False`). -/
def findDistanceData (MM : MMesh) (mTriIdx : ℕ) (vertCo : Vec3) : MirrorData :=
  let tri := MM.tri mTriIdx
  ⟨mTriIdx, false, tri.normal.dot (vertCo - tri.v0.co), 0, 0, 0⟩

/-- The intersection-test half of a dequeue step of
`MirrorMesh.mirrorConnected` (lines 216-219): when `intersectionTest` is on,
run `findFirstTri` from the closest mirrored neighbour's face and store a
found record; propagate a raised exception. -/
def bodyAfterFFT (S : MSettings) (MM : MMesh) (itest : Bool) (i : ℕ)
    (lastM : MirrorData) (s : EState) : Except Unit EState :=
  if itest then
    match findFirstTri S MM (s.verts.getD i default) lastM.mirrorTri s.tags with
    | .error e => .error e
    | .ok (res, tags') =>
        let s1 := { s with tags := tags' }
        match res with
        | some d => .ok (setRecord s1 i (some d))
        | none => .ok s1
  else .ok s

/-- The `elif not MirrorMesh.onlyIntersecting` fallback of a dequeue step
(lines 225-232): record a flat plane distance against the last face, mirror
flatly and enqueue the neighbours; or do nothing when `onlyIntersecting` is
on. -/
def bodyNoIntersect (S : MSettings) (MM : MMesh) (nbrs : List (List ℕ))
    (i : ℕ) (lastM : MirrorData) (s1 : EState) (q : List ℕ) :
    EState × List ℕ :=
  if ¬S.onlyIntersecting then
    let d := findDistanceData MM lastM.mirrorTri (s1.verts.getD i default)
    let s2 := setRecord s1 i (some d)
    let s3 := mirrorVertSt S MM i d true s2
    queueConnectedVerts nbrs i s3 q
  else (s1, q)

/-- The mirroring half of a dequeue step of `MirrorMesh.mirrorConnected`
(lines 221-232): `mData` is the record found by the intersection test (the
Python `if mData is not None and mData._intersected` / `elif` chain). -/
def bodyFinish (S : MSettings) (MM : MMesh) (nbrs : List (List ℕ))
    (itest : Bool) (i : ℕ) (lastM : MirrorData) (s1 : EState) (q : List ℕ) :
    EState × List ℕ :=
  match (if itest then (s1.search.getD i default).mirrorData else none) with
  | some d =>
      if d.intersected then
        queueConnectedVerts nbrs i (mirrorVertSt S MM i d false s1) q
      else bodyNoIntersect S MM nbrs i lastM s1 q
  | none => bodyNoIntersect S MM nbrs i lastM s1 q

/-- One dequeue step body of `MirrorMesh.mirrorConnected` (lines 203-232)
once the dequeued vertex `i` is known to be unmirrored and its recorded
closest mirrored neighbour's data `lastM` has been fetched.  Returns the
updated state and the queue. -/
def mirrorConnectedBody (S : MSettings) (MM : MMesh) (nbrs : List (List ℕ))
    (itest : Bool) (i : ℕ) (lastM : MirrorData) (s : EState) (q : List ℕ) :
    EState × List ℕ :=
  match bodyAfterFFT S MM itest i lastM s with
  | .error _ => ({ s with err := true }, q)
  | .ok s1 => bodyFinish S MM nbrs itest i lastM s1 q

/-- The `while not vertQueue.empty()` loop of `MirrorMesh.mirrorConnected`
(lines 203-232), fuelled.  A dequeued vertex whose `closeVert` is unset or
whose closest neighbour has no mirror record would make the Python code
raise (`None` attribute access); the embedding sets `err` there. -/
def mirrorConnectedLoop (S : MSettings) (MM : MMesh) (nbrs : List (List ℕ))
    (itest : Bool) (fuel : ℕ) (s : EState) (q : List ℕ) : EState :=
  if _h : fuel = 0 then s
  else if s.err then s
  else
    match q with
    | [] => s
    | i :: q' =>
        match (s.search.getD i default).mirrorData with
        | none =>
          match (s.search.getD i default).closeVert with
          | none => { s with err := true }
          | some cv =>
              match (s.search.getD cv default).mirrorData with
              | none => { s with err := true }
              | some lastM =>
                  let (s1, q1) := mirrorConnectedBody S MM nbrs itest i lastM s q'
                  mirrorConnectedLoop S MM nbrs itest (fuel - 1) s1 q1
        | some _ => mirrorConnectedLoop S MM nbrs itest (fuel - 1) s q'
termination_by fuel
decreasing_by all_goals omega

/-- Fuel bound for the vertex wavefront: entries are only enqueued by
`queueConnectedVerts`, which runs once per call plus once per mirrored
vertex, each time adding at most the total adjacency length. -/
def vertFuel (nbrs : List (List ℕ)) : ℕ :=
  (nbrs.length + 2) * ((nbrs.map List.length).sum + 1) + 2

/-- `MirrorMesh.mirrorConnected` (lines 193-232). -/
def mirrorConnected (S : MSettings) (MM : MMesh) (nbrs : List (List ℕ))
    (initVertInd : ℕ) (itest : Bool) (s : EState) : EState :=
  if s.err then s
  else
    let (s1, q) := queueConnectedVerts nbrs initVertInd s []
    mirrorConnectedLoop S MM nbrs itest (vertFuel nbrs) s1 q

/-- One iteration of the seed loop of `MirrorMesh.mirrorMesh`
(lines 146-158) for vertex `i`. -/
def seedStep (S : MSettings) (MM : MMesh) (nbrs : List (List ℕ))
    (s : EState) (i : ℕ) : EState :=
  if s.err then s
  else
    match (s.search.getD i default).mirrorData with
    | some _ => s
    | none =>
    match findClosestTri S MM (s.verts.getD i default) with
    | .error _ => { s with err := true }
    | .ok r =>
        let s1 := setRecord s i r
        match r with
        | some d =>
            if d.intersected then
              let s2 := mirrorVertSt S MM i d false s1
              if ¬S.closestOnly then mirrorConnected S MM nbrs i true s2
              else s2
            else s1
        | none => s1

/-- Phases 1-3 of `MirrorMesh.mirrorMesh`: the seed loop over all vertices
(lines 146-158). -/
def seedPhase (S : MSettings) (MM : MMesh) (nbrs : List (List ℕ)) (n : ℕ)
    (s : EState) : EState :=
  (List.range n).foldl (seedStep S MM nbrs) s

/-- The non-mirrored count of `MirrorMesh.mirrorMesh` (lines 161-164). -/
def countNonMirrored (s : EState) : ℕ :=
  s.search.countP (fun r => match r.mirrorData with | none => true | some _ => false)

/-- One iteration of the phase-4 sweep loop of
`MirrorMesh.mirrorNonIntersecting` (lines 180-182): re-run propagation
without intersection tests from each vertex that is mirrored when the sweep
reaches it. -/
def sweepStep (S : MSettings) (MM : MMesh) (nbrs : List (List ℕ))
    (s : EState) (i : ℕ) : EState :=
  if s.err then s
  else
    match (s.search.getD i default).mirrorData with
    | some _ => mirrorConnected S MM nbrs i false s
    | none => s

/-- `MirrorMesh.mirrorNonIntersecting` (lines 172-182): the phase-4 sweep,
re-running propagation without intersection tests from every vertex that is
mirrored at the time the sweep reaches it. -/
def mirrorNonIntersecting (S : MSettings) (MM : MMesh) (nbrs : List (List ℕ))
    (n : ℕ) (nonMirrorCount : ℕ) (s : EState) : EState :=
  if nonMirrorCount > 0 then
    (List.range n).foldl (sweepStep S MM nbrs) s
  else s

/-- Initial engine state for a source mesh: fresh `SearchData()` per vertex
(line 143), untouched positions, clear face tags. -/
def initState (mesh : SMesh) : EState :=
  { err := false
    verts := mesh.verts
    search := mesh.verts.map (fun _ => defaultSearchRec)
    tags := []
    mcount := mesh.verts.map (fun _ => 0) }

/-- `MirrorMesh.mirrorMesh` (lines 140-170): returns the non-mirrored count
exactly as the Python function returns it (computed after the seed loop and
before the phase-4 sweep), together with the final state. -/
def mirrorMeshRun (S : MSettings) (mesh : SMesh) (MM : MMesh) : ℕ × EState :=
  let n := mesh.verts.length
  let s1 := seedPhase S MM mesh.nbrs n (initState mesh)
  let nonMirrorCount := countNonMirrored s1
  let s2 :=
    if S.closestOnly ∧ ¬S.onlyIntersecting then
      mirrorNonIntersecting S MM mesh.nbrs n nonMirrorCount s1
    else s1
  (nonMirrorCount, s2)

/-- Per-mesh outcome of `MirrorMesh.execute` (lines 114-131). -/
inductive MeshOutcome where
  | created
  | createdWithWarning
  | skippedNoIntersect
deriving DecidableEq, Repr

/-- The per-mesh decision of `MirrorMesh.execute` (lines 117-131): a mirrored
copy is produced iff `nonMCount < len(mesh.verts)`; a warning accompanies it
iff additionally `nonMCount != 0`; otherwise the mesh is reported as not
intersecting and no object is created. -/
def executeMeshReport (nonMCount nVerts : ℕ) : MeshOutcome :=
  if nonMCount < nVerts then
    if nonMCount ≠ 0 then .createdWithWarning else .created
  else .skippedNoIntersect

/-! ## Shared example data for witnesses and counterexamples -/

/-- A degenerate (zero-area) mirror triangle: three collinear vertices.
Blender computes the face normal of a degenerate face as the zero vector. -/
def degTri : MTri :=
  ⟨⟨⟨0,0,0⟩, ⟨0,0,1⟩⟩, ⟨⟨1,0,0⟩, ⟨0,0,1⟩⟩, ⟨⟨2,0,0⟩, ⟨0,0,1⟩⟩, ⟨0,0,0⟩⟩

/-- A well-formed flat mirror triangle in the plane `z = 0` with unit normal
`(0,0,1)` on the face and on every vertex. -/
def flatTri : MTri :=
  ⟨⟨⟨0,0,0⟩, ⟨0,0,1⟩⟩, ⟨⟨1,0,0⟩, ⟨0,0,1⟩⟩, ⟨⟨0,1,0⟩, ⟨0,0,1⟩⟩, ⟨0,0,1⟩⟩

/-! ## Claim C1: degenerate and parallel configurations in `triIntersection` -/

/-- The three per-vertex plane denominators of `triIntersection`
(`mTri.normal.dot(mTri.verts[k].normal)`, lines 288-290). -/
def triVertDen (tri : MTri) (k : ℕ) : ℚ :=
  if k = 0 then tri.normal.dot tri.v0.normal
  else if k = 1 then tri.normal.dot tri.v1.normal
  else tri.normal.dot tri.v2.normal

/-- The barycentric denominator `d00 * d11 - d01 * d01` of `triIntersection`
(line 302), written with the same formulas as the source. -/
def triBaryDen (vertCo : Vec3) (tri : MTri) : ℚ :=
  let t := tri.normal.dot (vertCo - tri.v0.co)
  let p0 := (t / triVertDen tri 0) • tri.v0.normal + tri.v0.co
  let p1 := (t / triVertDen tri 1) • tri.v1.normal + tri.v1.co
  let p2 := (t / triVertDen tri 2) • tri.v2.normal + tri.v2.co
  let e0 := p1 - p0
  let e1 := p2 - p0
  ((e0.dot e0) * (e1.dot e1) - (e0.dot e1) * (e0.dot e1))

/-- C1, counterexample: on a degenerate (zero-area) triangle the mirror
engine's intersection test raises a division-by-zero error instead of
producing a clear "no intersection" result (`None` / not-intersected). -/
theorem claim1_counterexample :
    triIntersection defaultMSettings 0 ⟨0, 0, 2⟩ degTri = .error () := by
  norm_num [triIntersection, degTri, defaultMSettings, Vec3.dot, MSettings.biasNeg]

/-- C1, amended: `triIntersection` returns `None` exactly for backface
culling (`cull` with `t < 0`); whenever every denominator it divides by is
nonzero it returns a well-defined `MirrorData`; and a degenerate or parallel
configuration that zeroes one of those denominators makes the computation
raise a division-by-zero error rather than return a "no intersection"
result. -/
theorem claim1_theorem (S : MSettings) (i : ℕ) (v : Vec3) (tri : MTri) :
    (triIntersection S i v tri = .ok none ↔
      (S.cull = true ∧ tri.normal.dot (v - tri.v0.co) < 0))
    ∧ (¬(S.cull = true ∧ tri.normal.dot (v - tri.v0.co) < 0) →
        triVertDen tri 0 ≠ 0 → triVertDen tri 1 ≠ 0 → triVertDen tri 2 ≠ 0 →
        triBaryDen v tri ≠ 0 →
        ∃ d, triIntersection S i v tri = .ok (some d))
    ∧ (¬(S.cull = true ∧ tri.normal.dot (v - tri.v0.co) < 0) →
        (triVertDen tri 0 = 0 ∨ triVertDen tri 1 = 0 ∨ triVertDen tri 2 = 0 ∨
          triBaryDen v tri = 0) →
        triIntersection S i v tri = .error ()) := by
  simp only [triIntersection, triBaryDen, triVertDen]
  norm_num
  split_ifs <;> simp_all

/-- C1, witness for the amended theorem at a concrete non-degenerate
input. -/
theorem claim1_witness :
    (¬(defaultMSettings.cull = true ∧
        flatTri.normal.dot (Vec3.sub ⟨1/4, 1/4, 1⟩ flatTri.v0.co) < 0)
      ∧ triVertDen flatTri 0 ≠ 0 ∧ triVertDen flatTri 1 ≠ 0
      ∧ triVertDen flatTri 2 ≠ 0
      ∧ triBaryDen ⟨1/4, 1/4, 1⟩ flatTri ≠ 0)
    ∧ ∃ d, triIntersection defaultMSettings 0 ⟨1/4, 1/4, 1⟩ flatTri = .ok (some d) := by
  have hcull : ¬(defaultMSettings.cull = true ∧
      flatTri.normal.dot (⟨1/4, 1/4, 1⟩ - flatTri.v0.co) < 0) := by
    norm_num [defaultMSettings, flatTri, Vec3.dot]
  have h0 : triVertDen flatTri 0 ≠ 0 := by norm_num [triVertDen, flatTri, Vec3.dot]
  have h1 : triVertDen flatTri 1 ≠ 0 := by norm_num [triVertDen, flatTri, Vec3.dot]
  have h2 : triVertDen flatTri 2 ≠ 0 := by norm_num [triVertDen, flatTri, Vec3.dot]
  have hb : triBaryDen ⟨1/4, 1/4, 1⟩ flatTri ≠ 0 := by
    norm_num [triBaryDen, triVertDen, flatTri, Vec3.dot]
  exact ⟨⟨hcull, h0, h1, h2, hb⟩,
    (claim1_theorem defaultMSettings 0 ⟨1/4, 1/4, 1⟩ flatTri).2.1 hcull h0 h1 h2 hb⟩

/-! ## Claim C5: flat mirroring across a flat plane is an involution -/

/-- A one-triangle mirror mesh built from `flatTri` (the scenario of the
spec: a single flat triangle at `z = 0` with normal `(0,0,1)`). -/
def MMflat : MMesh := ⟨[flatTri], [[0]]⟩

/-- Inversion lemma: a successful `triIntersection` stores the face index it
was called on and the signed plane distance `t` computed on line 281. -/
theorem triIntersection_ok_fields (S : MSettings) (i : ℕ) (v : Vec3)
    (tri : MTri) (d : MirrorData)
    (h : triIntersection S i v tri = .ok (some d)) :
    d.mirrorTri = i ∧ d.t = tri.normal.dot (v - tri.v0.co) := by
  simp only [triIntersection] at h
  split_ifs at h
  all_goals first
    | exact Option.noConfusion (Except.ok.inj h)
    | exact Except.noConfusion h
    | (obtain rfl := Option.some.inj (Except.ok.inj h); exact ⟨rfl, rfl⟩)

/-- Pure algebra core of the round trip: reflecting twice with the flat
displacement `-2 * (n ⬝ (v - p)) • n` over a unit normal `n` is the
identity. -/
theorem flat_reflect_twice (n p v : Vec3) (hn : n.dot n = 1) :
    (v + (-(2 : ℚ) * n.dot (v - p)) • n) +
      (-(2 : ℚ) * n.dot ((v + (-(2 : ℚ) * n.dot (v - p)) • n) - p)) • n = v := by
  obtain ⟨nx, ny, nz⟩ := n
  obtain ⟨px, py, pz⟩ := p
  obtain ⟨vx, vy, vz⟩ := v
  simp only [Vec3.dot, Vec3.add_def, Vec3.sub_def, Vec3.smul_def] at hn ⊢
  simp only [Vec3.mk.injEq]
  refine ⟨?_, ?_, ?_⟩
  · linear_combination (4 * (nx * (vx - px) + ny * (vy - py) + nz * (vz - pz)) * nx) * hn
  · linear_combination (4 * (nx * (vx - px) + ny * (vy - py) + nz * (vz - pz)) * ny) * hn
  · linear_combination (4 * (nx * (vx - px) + ny * (vy - py) + nz * (vz - pz)) * nz) * hn

/-- C5: for a vertex mirrored in flat mode (displacement
`calcFlatMirrorVector`, i.e. `-2t * faceNormal` with `t` the signed plane
distance computed by `triIntersection`), applying the flat mirror map twice
across the same triangle returns the vertex exactly (the mirror map is an
involution; over the rational model the tolerance is exact equality).  The
triangle's face normal is a unit vector (Blender face normals are
normalised). -/
theorem claim5_theorem (S : MSettings) (MM : MMesh) (j : ℕ) (v : Vec3)
    (d1 d2 : MirrorData)
    (hn : (MM.tri j).normal.dot (MM.tri j).normal = 1)
    (h1 : triIntersection S j v (MM.tri j) = .ok (some d1))
    (h2 : triIntersection S j (v + calcFlatMirrorVector MM d1) (MM.tri j) =
      .ok (some d2)) :
    (v + calcFlatMirrorVector MM d1) + calcFlatMirrorVector MM d2 = v := by
  obtain ⟨hj1, ht1⟩ := triIntersection_ok_fields S j v (MM.tri j) d1 h1
  obtain ⟨hj2, ht2⟩ := triIntersection_ok_fields S j _ (MM.tri j) d2 h2
  simp only [calcFlatMirrorVector, hj1, hj2, ht1, ht2] at *
  exact flat_reflect_twice (MM.tri j).normal (MM.tri j).v0.co v hn

/-- C5, witness: the spec's scenario — mirror mesh a single flat triangle at
`z = 0` with normal `(0,0,1)`, source vertex `(0,0,1)`: the vertex mirrors
to `(0,0,-1)` and mirroring again returns it to `(0,0,1)`. -/
theorem claim5_witness :
    ∃ d1 d2 : MirrorData,
      triIntersection defaultMSettings 0 ⟨0, 0, 1⟩ (MMflat.tri 0) = .ok (some d1)
      ∧ (⟨0, 0, 1⟩ : Vec3) + calcFlatMirrorVector MMflat d1 = ⟨0, 0, -1⟩
      ∧ triIntersection defaultMSettings 0
          ((⟨0, 0, 1⟩ : Vec3) + calcFlatMirrorVector MMflat d1) (MMflat.tri 0) =
          .ok (some d2)
      ∧ ((⟨0, 0, 1⟩ : Vec3) + calcFlatMirrorVector MMflat d1) +
          calcFlatMirrorVector MMflat d2 = ⟨0, 0, 1⟩ := by
  have hn : (MMflat.tri 0).normal.dot (MMflat.tri 0).normal = 1 := by
    norm_num [MMflat, MMesh.tri, flatTri, Vec3.dot]
  have h1 : triIntersection defaultMSettings 0 ⟨0, 0, 1⟩ (MMflat.tri 0) =
      .ok (some ⟨0, true, 1, 1, 0, 0⟩) := by
    norm_num [triIntersection, MMflat, MMesh.tri, flatTri, defaultMSettings,
      Vec3.dot, MSettings.biasNeg]
  have hmv : (⟨0, 0, 1⟩ : Vec3) + calcFlatMirrorVector MMflat ⟨0, true, 1, 1, 0, 0⟩ =
      ⟨0, 0, -1⟩ := by
    norm_num [calcFlatMirrorVector, MMflat, MMesh.tri, flatTri]
  have h2 : triIntersection defaultMSettings 0 (⟨0, 0, -1⟩ : Vec3) (MMflat.tri 0) =
      .ok (some ⟨0, true, -1, 1, 0, 0⟩) := by
    norm_num [triIntersection, MMflat, MMesh.tri, flatTri, defaultMSettings,
      Vec3.dot, MSettings.biasNeg]
  refine ⟨⟨0, true, 1, 1, 0, 0⟩, ⟨0, true, -1, 1, 0, 0⟩, h1, hmv, ?_, ?_⟩
  · rw [hmv]; exact h2
  · exact claim5_theorem defaultMSettings MMflat 0 ⟨0, 0, 1⟩ _ _ hn h1 (by rw [hmv]; exact h2)

/-! ## Claim C4: seed search retains the smallest `t`, first found wins -/

/-- The valid intersection candidates of `findClosestTri`'s scan, in
enumeration order: the `MirrorData` records that reach `setClosestMirror`
(constructed and `_intersected`, lines 267-270). -/
def validCands (S : MSettings) (vertCo : Vec3) : List (ℕ × MTri) → List MirrorData
  | [] => []
  | (i, tri) :: rest =>
      match triIntersection S i vertCo tri with
      | .ok (some d) =>
          if d.intersected then d :: validCands S vertCo rest
          else validCands S vertCo rest
      | _ => validCands S vertCo rest

/-- The retention policy the claim states: `none` iff there is no valid
candidate; otherwise the retained record has minimal `t` among all valid
candidates and every candidate found before it has strictly larger `t`
(first found wins on exact ties). -/
def IsFirstMin (l : List MirrorData) : Option MirrorData → Prop
  | none => l = []
  | some d =>
      (∀ c ∈ l, d.t ≤ c.t) ∧ ∃ pre post, l = pre ++ d :: post ∧ ∀ c ∈ pre, d.t < c.t

/-- Folding `setClosestMirror` left-to-right computes the first minimum. -/
theorem foldl_setClosestMirror_isFirstMin (L : List MirrorData) :
    IsFirstMin L (List.foldl setClosestMirror none L) := by
  induction L using List.reverseRecOn with
  | nil => simp [IsFirstMin]
  | append_singleton l b ih =>
      rw [List.foldl_append]
      cases hr : List.foldl setClosestMirror none l with
      | none =>
          rw [hr] at ih
          simp only [IsFirstMin] at ih
          subst ih
          refine ⟨by simp, [], [], by simp, by simp⟩
      | some d =>
          rw [hr] at ih
          obtain ⟨hmin, pre, post, hdecomp, hpre⟩ := ih
          simp only [List.foldl_cons, List.foldl_nil, setClosestMirror]
          by_cases hb : b.t < d.t
          · rw [if_pos hb]
            refine ⟨?_, l, [], by simp, ?_⟩
            · intro c hc
              rcases List.mem_append.1 hc with hc | hc
              · exact le_of_lt (lt_of_lt_of_le hb (hmin c hc))
              · simp at hc; subst hc; exact le_refl _
            · intro c hc
              exact lt_of_lt_of_le hb (hmin c hc)
          · rw [if_neg hb]
            refine ⟨?_, pre, post ++ [b], by rw [hdecomp]; simp, hpre⟩
            intro c hc
            rcases List.mem_append.1 hc with hc | hc
            · exact hmin c hc
            · simp at hc; subst hc; exact le_of_not_lt hb

/-- The scan loop of `findClosestTri` equals the `setClosestMirror` fold
over its valid candidates. -/
theorem findClosestTriGo_eq_foldl (S : MSettings) (v : Vec3) :
    ∀ (l : List (ℕ × MTri)) (acc : Option MirrorData) (r : Option MirrorData),
      findClosestTriGo S v l acc = .ok r →
      r = List.foldl setClosestMirror acc (validCands S v l)
  | [], acc, r, h => by
      simp only [findClosestTriGo] at h
      simp [validCands, ← Except.ok.inj h]
  | (i, tri) :: rest, acc, r, h => by
      simp only [findClosestTriGo] at h
      cases htri : triIntersection S i v tri with
      | error e => rw [htri] at h; exact Except.noConfusion h
      | ok o =>
          rw [htri] at h
          simp only [validCands, htri]
          cases o with
          | none =>
              simp only at h
              exact findClosestTriGo_eq_foldl S v rest acc r h
          | some d =>
              by_cases hd : d.intersected
              · simp only [hd, if_true] at h ⊢
                rw [List.foldl_cons]
                exact findClosestTriGo_eq_foldl S v rest (setClosestMirror acc d) r h
              · simp only [hd] at h ⊢
                simp only [Bool.false_eq_true, if_false] at h ⊢
                exact findClosestTriGo_eq_foldl S v rest acc r h

/-- C4: when the seed search over the mirror mesh's triangles completes
without raising, the record it retains for the vertex is exactly the valid
intersection with the smallest signed distance `t`, and on exact ties the
first candidate in enumeration order wins (strict `<` replacement in
`setClosestMirror`); no valid intersection leaves the record unset. -/
theorem claim4_theorem (S : MSettings) (MM : MMesh) (v : Vec3)
    (r : Option MirrorData) (h : findClosestTri S MM v = .ok r) :
    IsFirstMin (validCands S v MM.faces.enum) r := by
  have := findClosestTriGo_eq_foldl S v MM.faces.enum none r h
  rw [this]
  exact foldl_setClosestMirror_isFirstMin _

/-- A larger triangle in the same `z = 0` plane (used to exercise an exact
tie in `t`). -/
def bigTri : MTri :=
  ⟨⟨⟨0,0,0⟩, ⟨0,0,1⟩⟩, ⟨⟨2,0,0⟩, ⟨0,0,1⟩⟩, ⟨⟨0,2,0⟩, ⟨0,0,1⟩⟩, ⟨0,0,1⟩⟩

/-- A two-triangle mirror mesh whose two faces both intersect the witness
vertex at the same plane distance `t = 1`. -/
def MMtie : MMesh := ⟨[flatTri, bigTri], [[0, 1], [0, 1]]⟩

/-- C4, witness: with two valid intersections at exactly equal `t = 1`, the
seed search keeps the record of the first face in enumeration order. -/
theorem claim4_witness :
    findClosestTri defaultMSettings MMtie ⟨1/4, 1/4, 1⟩ =
      .ok (some ⟨0, true, 1, 1/2, 1/4, 1/4⟩)
    ∧ IsFirstMin (validCands defaultMSettings ⟨1/4, 1/4, 1⟩ MMtie.faces.enum)
        (some ⟨0, true, 1, 1/2, 1/4, 1/4⟩) := by
  have h : findClosestTri defaultMSettings MMtie ⟨1/4, 1/4, 1⟩ =
      .ok (some ⟨0, true, 1, 1/2, 1/4, 1/4⟩) := by
    norm_num [findClosestTri, findClosestTriGo, triIntersection, setClosestMirror,
      MMtie, flatTri, bigTri, defaultMSettings, MSettings.biasNeg, Vec3.dot,
      List.enum, List.enumFrom]
  exact ⟨h, claim4_theorem defaultMSettings MMtie ⟨1/4, 1/4, 1⟩ _ h⟩

/-! ## Claim C2: the per-mesh non-mirrored count and `execute`'s decision -/

/-- Counterexample settings: `intersectClosest` on, `onlyIntersectingVert`
off (the mode combination that triggers the phase-4 sweep), flat mirroring,
no culling. -/
def cexSettings : MSettings := ⟨1/10000, false, false, true, false⟩

/-- Counterexample mirror mesh: the single flat triangle. -/
def cexMirror : MMesh := ⟨[flatTri], [[0]]⟩

/-- Counterexample source mesh: vertex 0 above the triangle (intersects),
vertex 1 far outside it (no intersection), joined by one edge. -/
def cexMesh : SMesh := ⟨[⟨1/4, 1/4, 1⟩, ⟨5, 5, 1⟩], [[1], [0]]⟩

/-- The seed record of vertex 0 in the counterexample run. -/
def cexD0 : MirrorData := ⟨0, true, 1, 1/2, 1/4, 1/4⟩

/-- The flat fallback record vertex 1 receives from the phase-4 sweep. -/
def cexD1 : MirrorData := ⟨0, false, 1, 0, 0, 0⟩

/-- Engine state after the seed loop of the counterexample run: vertex 0
mirrored, vertex 1 not. -/
def cexS1 : EState :=
  ⟨false, [⟨1/4, 1/4, -1⟩, ⟨5, 5, 1⟩],
    [⟨largeFloat ^ 2, none, some cexD0⟩, ⟨largeFloat ^ 2, none, none⟩], [], [1, 0]⟩

/-- Engine state after the phase-4 sweep of the counterexample run: both
vertices mirrored. -/
def cexS5 : EState :=
  ⟨false, [⟨1/4, 1/4, -1⟩, ⟨5, 5, -1⟩],
    [⟨largeFloat ^ 2, none, some cexD0⟩, ⟨393/8, some 0, some cexD1⟩], [], [1, 1]⟩

theorem cexSeed0 :
    seedStep cexSettings cexMirror cexMesh.nbrs (initState cexMesh) 0 = cexS1 := by
  have h0 : findClosestTri cexSettings cexMirror ⟨1/4, 1/4, 1⟩ = .ok (some cexD0) := by
    norm_num [findClosestTri, findClosestTriGo, triIntersection, setClosestMirror,
      cexMirror, flatTri, cexSettings, MSettings.biasNeg, Vec3.dot, cexD0,
      List.enum, List.enumFrom]
  simp only [cexSettings, cexMirror, cexD0, flatTri] at h0
  norm_num [seedStep, initState, cexMesh, defaultSearchRec, h0, setRecord,
    mirrorVertSt, mirrorVertVec, calcFlatMirrorVector, MMesh.tri, cexMirror,
    flatTri, cexD0, cexSettings, cexS1, largeFloat]

theorem cexSeed1 : seedStep cexSettings cexMirror cexMesh.nbrs cexS1 1 = cexS1 := by
  have h0 : findClosestTri cexSettings cexMirror ⟨5, 5, 1⟩ = .ok none := by
    norm_num [findClosestTri, findClosestTriGo, triIntersection, setClosestMirror,
      cexMirror, flatTri, cexSettings, MSettings.biasNeg, Vec3.dot,
      List.enum, List.enumFrom]
  simp only [cexSettings, cexMirror, flatTri] at h0
  norm_num [seedStep, cexS1, h0, setRecord, defaultSearchRec, cexD0, largeFloat,
    cexSettings, cexMirror, flatTri]

theorem cexSweep0 :
    mirrorConnected cexSettings cexMirror cexMesh.nbrs 0 false cexS1 = cexS5 := by
  norm_num [mirrorConnected, mirrorConnectedLoop, mirrorConnectedBody,
    bodyAfterFFT, bodyFinish, bodyNoIntersect,
    queueConnectedVerts, queueConnectedVertsGo, findDistanceData, setRecord,
    mirrorVertSt, mirrorVertVec, calcFlatMirrorVector, MMesh.tri, vertFuel,
    defaultSearchRec, cexSettings, cexMirror, cexMesh, flatTri, cexD0, cexD1,
    cexS1, cexS5, largeFloat, Vec3.dot, Vec3.lenSq]

theorem cexSweep1 :
    mirrorConnected cexSettings cexMirror cexMesh.nbrs 1 false cexS5 = cexS5 := by
  norm_num [mirrorConnected, mirrorConnectedLoop, mirrorConnectedBody,
    bodyAfterFFT, bodyFinish, bodyNoIntersect,
    queueConnectedVerts, queueConnectedVertsGo, findDistanceData, setRecord,
    mirrorVertSt, mirrorVertVec, calcFlatMirrorVector, MMesh.tri, vertFuel,
    defaultSearchRec, cexSettings, cexMirror, cexMesh, flatTri, cexD0, cexD1,
    cexS5, largeFloat, Vec3.dot, Vec3.lenSq]

theorem cexRun : mirrorMeshRun cexSettings cexMesh cexMirror = (1, cexS5) := by
  have h1 := cexSeed0
  have h2 := cexSeed1
  have h4 := cexSweep0
  have h5 := cexSweep1
  norm_num [cexSettings, cexMirror, cexMesh, flatTri, cexD0, cexD1, cexS1, cexS5,
    largeFloat, initState, defaultSearchRec] at h1 h2 h4 h5
  norm_num [mirrorMeshRun, seedPhase, mirrorNonIntersecting, sweepStep,
    countNonMirrored, initState, List.range_succ, h1, h2, h4, h5,
    defaultSearchRec, largeFloat, cexSettings, cexMirror, cexMesh, flatTri,
    cexD0, cexD1, cexS1, cexS5, List.countP, List.countP.go]

/-- C2, counterexample: in the phase-4 mode (`intersectClosest` on,
`onlyIntersectingVert` off) the run on `cexMesh` mirrors both vertices
(vertex 1 is mirrored by the phase-4 sweep; both mirror counters end at 1
and no vertex is left unmirrored), yet the per-mesh result returned by
`mirrorMesh` is 1, not 0: the returned count is taken before the phase-4
sweep and is not "the count of vertices never mirrored during that
invocation (including any phase-4 sweep)". -/
theorem claim2_counterexample :
    (mirrorMeshRun cexSettings cexMesh cexMirror).1 = 1
    ∧ countNonMirrored (mirrorMeshRun cexSettings cexMesh cexMirror).2 = 0
    ∧ (mirrorMeshRun cexSettings cexMesh cexMirror).2.mcount = [1, 1]
    ∧ (mirrorMeshRun cexSettings cexMesh cexMirror).2.err = false := by
  rw [cexRun]
  norm_num [countNonMirrored, cexS5, cexD0, cexD1, List.countP, List.countP.go]

/-- C2, amended: the per-mesh result is the count of vertices unmirrored at
the end of the seed/propagation phases and **before** the phase-4 sweep
(vertices mirrored by the sweep are still counted as failures).  With that
count, `execute` skips the mesh (reporting no intersection, creating no
object) iff the count equals the vertex total, creates a mirrored copy
otherwise, and attaches a warning exactly when some but not all vertices
failed the pre-sweep phases. -/
theorem claim2_theorem (S : MSettings) (mesh : SMesh) (MM : MMesh) :
    (mirrorMeshRun S mesh MM).1 =
      countNonMirrored (seedPhase S MM mesh.nbrs mesh.verts.length (initState mesh))
    ∧ (∀ nonM nV : ℕ, nonM ≤ nV →
        ((executeMeshReport nonM nV = .skippedNoIntersect ↔ nonM = nV)
          ∧ (executeMeshReport nonM nV = .createdWithWarning ↔ 0 < nonM ∧ nonM < nV)
          ∧ (executeMeshReport nonM nV = .created ↔ nonM = 0 ∧ 0 < nV))) := by
  refine ⟨rfl, ?_⟩
  intro nonM nV hle
  unfold executeMeshReport
  split_ifs with h1 h2 <;>
    refine ⟨⟨fun ha => ?_, fun ha => ?_⟩, ⟨fun ha => ?_, fun ha => ?_⟩,
      ⟨fun ha => ?_, fun ha => ?_⟩⟩ <;>
    first
      | omega
      | rfl
      | (exact absurd ha (by simp))
      | (exact absurd ha (by omega))

/-- C2, witness for the amended theorem: the counterexample run instantiated
in the report characterisation (count 1 of 2: copy created with warning). -/
theorem claim2_witness :
    (mirrorMeshRun cexSettings cexMesh cexMirror).1 =
      countNonMirrored
        (seedPhase cexSettings cexMirror cexMesh.nbrs cexMesh.verts.length
          (initState cexMesh))
    ∧ (1 : ℕ) ≤ 2
    ∧ (executeMeshReport 1 2 = .createdWithWarning ↔ 0 < 1 ∧ 1 < 2) := by
  obtain ⟨h1, h2⟩ := claim2_theorem cexSettings cexMesh cexMirror
  exact ⟨h1, by norm_num, (h2 1 2 (by norm_num)).2.1⟩

/-! ## Claim C10: `findFirstTri` restores the visited-tag state -/

/-- `queueConnectedFacesGo` keeps the tag set and the tag list in sync:
every face it tags it also appends to the tag list, so "tagged iff listed"
is preserved. -/
theorem queueConnectedFacesGo_sync :
    ∀ (l q tg tl : List ℕ), (∀ x, x ∈ tg ↔ x ∈ tl) →
      ∀ x, x ∈ (queueConnectedFacesGo l q tg tl).2.1 ↔
        x ∈ (queueConnectedFacesGo l q tg tl).2.2
  | [], q, tg, tl, h => h
  | of :: rest, q, tg, tl, h => by
      simp only [queueConnectedFacesGo]
      split_ifs with hof
      · exact queueConnectedFacesGo_sync rest q tg tl h
      · refine queueConnectedFacesGo_sync rest (q ++ [of]) (of :: tg) (tl ++ [of]) ?_
        intro x
        simp only [List.mem_cons, List.mem_append, List.mem_singleton, h x]
        tauto

/-- The BFS loop of `findFirstTri` preserves "tagged iff listed" up to its
normal return. -/
theorem findFirstTriLoop_sync (S : MSettings) (MM : MMesh) (v : Vec3) :
    ∀ (fuel : ℕ) (queue tags tagList : List ℕ) (r : Option MirrorData)
      (tags' tagList' : List ℕ),
      (∀ x, x ∈ tags ↔ x ∈ tagList) →
      findFirstTriLoop S MM v fuel queue tags tagList = .ok (r, tags', tagList') →
      ∀ x, x ∈ tags' ↔ x ∈ tagList' := by
  intro fuel
  induction fuel using Nat.strong_induction_on with
  | _ fuel ih =>
      intro queue tags tagList r tags' tagList' hsync h
      rw [findFirstTriLoop.eq_def] at h
      split_ifs at h with hf
      · simp only [Except.ok.injEq, Prod.mk.injEq] at h
        obtain ⟨-, h2, h3⟩ := h
        subst h2; subst h3; exact hsync
      · cases queue with
        | nil =>
            simp only [Except.ok.injEq, Prod.mk.injEq] at h
            obtain ⟨-, h2, h3⟩ := h
            subst h2; subst h3; exact hsync
        | cons f q =>
            simp only at h
            cases htri : triIntersection S f v (MM.tri f) with
            | error e => rw [htri] at h; exact Except.noConfusion h
            | ok r0 =>
                rw [htri] at h
                simp only at h
                split_ifs at h with hint
                · simp only [Except.ok.injEq, Prod.mk.injEq] at h
                  obtain ⟨-, h2, h3⟩ := h
                  subst h2; subst h3; exact hsync
                · have hrec := queueConnectedFacesGo_sync (MM.adj.getD f []) q tags tagList hsync
                  rcases hqc : queueConnectedFacesGo (MM.adj.getD f []) q tags tagList with ⟨q1, tg1, tl1⟩
                  rw [queueConnectedFaces] at h
                  rw [hqc] at h hrec
                  simp only at h hrec
                  exact ih (fuel - 1) (by omega) q1 tg1 tl1 r tags' tagList' hrec h

/-- C10: a call to the adjacency BFS `findFirstTri` that starts with every
mirror-mesh face tag cleared and returns normally clears every tag it set
(including the tags of faces still queued when the search exits early on an
intersection hit): the final tag state is again empty, so repeated searches
over the same mirror mesh are unaffected by earlier ones. -/
theorem claim10_theorem (S : MSettings) (MM : MMesh) (v : Vec3) (f : ℕ)
    (r : Option MirrorData) (tags' : List ℕ)
    (h : findFirstTri S MM v f [] = .ok (r, tags')) : tags' = [] := by
  unfold findFirstTri at h
  cases hloop : findFirstTriLoop S MM v MM.fuel [f] (f :: []) [f] with
  | error e => rw [hloop] at h; exact Except.noConfusion h
  | ok res =>
      obtain ⟨r0, tg, tl⟩ := res
      rw [hloop] at h
      simp only [Except.ok.injEq, Prod.mk.injEq] at h
      obtain ⟨-, hflt⟩ := h
      have hsync : ∀ x, x ∈ tg ↔ x ∈ tl := by
        refine findFirstTriLoop_sync S MM v MM.fuel [f] (f :: []) [f] r0 tg tl ?_ hloop
        intro x; simp
      rw [← hflt]
      rw [List.filter_eq_nil_iff]
      intro a ha
      simp only [decide_not, Bool.not_eq_true', decide_eq_false_iff_not, not_not]
      exact (hsync a).1 ha

/-- C10, witness: a BFS over the two-face mesh starting at face 0 for a
vertex that only intersects face 1; the search tags both faces, exits on the
hit, and the returned tag state is empty. -/
theorem claim10_witness :
    findFirstTri defaultMSettings MMtie ⟨3/2, 1/4, 1⟩ 0 [] =
      .ok (some ⟨1, true, 1, 1/8, 3/4, 1/8⟩, [])
    ∧ ([] : List ℕ) = [] := by
  have h : findFirstTri defaultMSettings MMtie ⟨3/2, 1/4, 1⟩ 0 [] =
      .ok (some ⟨1, true, 1, 1/8, 3/4, 1/8⟩, []) := by
    norm_num [findFirstTri, findFirstTriLoop, queueConnectedFaces,
      queueConnectedFacesGo, triIntersection, MMesh.tri, MMesh.fuel, MMtie,
      flatTri, bigTri, defaultMSettings, MSettings.biasNeg, Vec3.dot]
  exact ⟨h, claim10_theorem defaultMSettings MMtie ⟨3/2, 1/4, 1⟩ 0 _ _ h⟩

/-! ## Claim C9: every vertex position is mirrored at most once -/

/-- The at-most-once invariant: the per-vertex search and counter lists stay
aligned, and each vertex's mirror counter is 0, or it is 1 and the vertex's
mirror record is set (the "mirrored" mark, which no engine operation ever
clears). -/
def vertOnce (s : EState) : Prop :=
  s.search.length = s.mcount.length ∧
  ∀ i, s.mcount.getD i 0 = 0 ∨
    (s.mcount.getD i 0 = 1 ∧ (s.search.getD i default).mirrorData ≠ none)

theorem vertOnce_count_zero {s : EState} (h : vertOnce s) {i : ℕ}
    (hrec : (s.search.getD i default).mirrorData = none) :
    s.mcount.getD i 0 = 0 := by
  rcases h.2 i with h0 | ⟨-, h2⟩
  · exact h0
  · exact absurd hrec h2

theorem setRecord_getD_self (s : EState) (i : ℕ) (od : Option MirrorData)
    (hlen : i < s.search.length) :
    ((setRecord s i od).search.getD i default).mirrorData = od := by
  simp [setRecord, List.getD_eq_getElem?_getD, List.getElem?_set_self',
    List.getElem?_eq_getElem hlen]

theorem vertOnce_setRecord {s : EState} (h : vertOnce s) (i : ℕ)
    (od : Option MirrorData) (hcnt : s.mcount.getD i 0 = 0) :
    vertOnce (setRecord s i od) := by
  refine ⟨by simp [setRecord, h.1], ?_⟩
  intro j
  by_cases hij : i = j
  · subst hij
    exact Or.inl hcnt
  · have hs : ((setRecord s i od).search.getD j default) = s.search.getD j default := by
      simp [setRecord, List.getD_eq_getElem?_getD, List.getElem?_set_ne hij]
    rcases h.2 j with h0 | ⟨h1, h2⟩
    · exact Or.inl h0
    · exact Or.inr ⟨h1, hs ▸ h2⟩

theorem vertOnce_mirrorVertSt {s : EState} (h : vertOnce s) (S : MSettings)
    (MM : MMesh) (i : ℕ) (d : MirrorData) (ffm : Bool)
    (hcnt : s.mcount.getD i 0 = 0)
    (hrec : i < s.search.length → (s.search.getD i default).mirrorData ≠ none) :
    vertOnce (mirrorVertSt S MM i d ffm s) := by
  unfold mirrorVertSt
  split_ifs with herr
  · exact h
  · cases hmv : mirrorVertVec S MM d ffm with
    | error e => exact h
    | ok vec =>
        refine ⟨by simp [h.1], ?_⟩
        intro j
        by_cases hij : i = j
        · subst hij
          by_cases hlen : i < s.mcount.length
          · right
            constructor
            · show (s.mcount.set i (s.mcount.getD i 0 + 1)).getD i 0 = 1
              have hset : (s.mcount.set i (s.mcount.getD i 0 + 1)).getD i 0 =
                  s.mcount.getD i 0 + 1 := by
                simp [List.getD_eq_getElem?_getD, List.getElem?_set_self',
                  List.getElem?_eq_getElem hlen]
              rw [hset, hcnt]
            · show (s.search.getD i default).mirrorData ≠ none
              exact hrec (by rw [h.1]; exact hlen)
          · left
            show (s.mcount.set i (s.mcount.getD i 0 + 1)).getD i 0 = 0
            rw [List.set_eq_of_length_le (by omega)]
            exact hcnt
        · have hc : (s.mcount.set i (s.mcount.getD i 0 + 1)).getD j 0 =
              s.mcount.getD j 0 := by
            simp [List.getD_eq_getElem?_getD, List.getElem?_set_ne hij]
          rcases h.2 j with h0 | ⟨h1, h2⟩
          · exact Or.inl (hc.trans h0)
          · exact Or.inr ⟨hc.trans h1, h2⟩

/-- `queueConnectedVerts` never touches mirror records or counters, so it
preserves the at-most-once invariant. -/
theorem vertOnce_qcvGo (vi : ℕ) (viCo : Vec3) :
    ∀ (l : List ℕ) (s : EState) (q : List ℕ), vertOnce s →
      vertOnce (queueConnectedVertsGo vi viCo l s q).1
  | [], _, _, h => h
  | c :: rest, s, q, h => by
      simp only [queueConnectedVertsGo]
      cases hmd : (s.search.getD c default).mirrorData with
      | some d => exact vertOnce_qcvGo vi viCo rest s q h
      | none =>
          simp only
          split_ifs with hd
          · refine vertOnce_qcvGo vi viCo rest _ _ ⟨by simp [h.1], ?_⟩
            intro j
            by_cases hcj : c = j
            · subst hcj
              exact Or.inl (vertOnce_count_zero h hmd)
            · have hs : ∀ X : SearchRec,
                  (s.search.set c X).getD j default = s.search.getD j default :=
                fun X => by
                  simp [List.getD_eq_getElem?_getD, List.getElem?_set_ne hcj]
              rcases h.2 j with h0 | ⟨h1, h2⟩
              · exact Or.inl h0
              · exact Or.inr ⟨h1, by rw [hs]; exact h2⟩
          · exact vertOnce_qcvGo vi viCo rest s _ h

theorem vertOnce_qcv (nbrs : List (List ℕ)) (vi : ℕ) (s : EState) (q : List ℕ)
    (h : vertOnce s) : vertOnce (queueConnectedVerts nbrs vi s q).1 := by
  unfold queueConnectedVerts
  split_ifs with herr
  · exact h
  · exact vertOnce_qcvGo vi _ _ s q h

/-- `setRecord` keeps the counter list untouched. -/
theorem setRecord_mcount (s : EState) (i : ℕ) (od : Option MirrorData) :
    (setRecord s i od).mcount = s.mcount := rfl

/-- The flat-fallback step (record, mirror flatly, enqueue neighbours)
preserves the invariant whenever the vertex counter is still zero. -/
theorem vertOnce_flatFallback (S : MSettings) (MM : MMesh)
    (nbrs : List (List ℕ)) (i : ℕ) (d : MirrorData) (s : EState) (q : List ℕ)
    (h : vertOnce s) (hcnt : s.mcount.getD i 0 = 0) :
    vertOnce (queueConnectedVerts nbrs i
      (mirrorVertSt S MM i d true (setRecord s i (some d))) q).1 := by
  refine vertOnce_qcv nbrs i _ q ?_
  refine vertOnce_mirrorVertSt (vertOnce_setRecord h i _ hcnt) S MM i d true hcnt ?_
  intro hlen
  rw [setRecord_getD_self s i _ (by simpa [setRecord] using hlen)]
  exact Option.some_ne_none _

/-- The intersection-test half of a dequeue step preserves the invariant
and the zero counter of the dequeued vertex. -/
theorem bodyAfterFFT_ok (S : MSettings) (MM : MMesh) (itest : Bool) (i : ℕ)
    (lastM : MirrorData) (s s1 : EState)
    (h : vertOnce s) (hcnt : s.mcount.getD i 0 = 0)
    (hstep : bodyAfterFFT S MM itest i lastM s = .ok s1) :
    vertOnce s1 ∧ s1.mcount.getD i 0 = 0 := by
  unfold bodyAfterFFT at hstep
  cases itest with
  | false =>
      simp only [Bool.false_eq_true, if_false] at hstep
      obtain rfl := Except.ok.inj hstep
      exact ⟨h, hcnt⟩
  | true =>
      simp only [if_true] at hstep
      cases hfft : findFirstTri S MM (s.verts.getD i default) lastM.mirrorTri s.tags with
      | error e => rw [hfft] at hstep; exact Except.noConfusion hstep
      | ok res =>
          obtain ⟨r0, tags'⟩ := res
          rw [hfft] at hstep
          simp only at hstep
          have hTags : vertOnce ({ s with tags := tags' }) := h
          have hTagsCnt : ({ s with tags := tags' } : EState).mcount.getD i 0 = 0 := hcnt
          cases r0 with
          | none =>
              obtain rfl := Except.ok.inj hstep
              exact ⟨hTags, hTagsCnt⟩
          | some d =>
              obtain rfl := Except.ok.inj hstep
              exact ⟨vertOnce_setRecord hTags i _ hTagsCnt, hTagsCnt⟩

/-- The mirroring half of a dequeue step preserves the invariant when the
dequeued vertex's counter is still zero. -/
theorem vertOnce_bodyNoIntersect (S : MSettings) (MM : MMesh)
    (nbrs : List (List ℕ)) (i : ℕ) (lastM : MirrorData) (s1 : EState)
    (q : List ℕ) (h : vertOnce s1) (hcnt : s1.mcount.getD i 0 = 0) :
    vertOnce (bodyNoIntersect S MM nbrs i lastM s1 q).1 := by
  unfold bodyNoIntersect
  split_ifs with honly
  · exact h
  · exact vertOnce_flatFallback S MM nbrs i _ s1 q h hcnt

theorem vertOnce_bodyFinish (S : MSettings) (MM : MMesh) (nbrs : List (List ℕ))
    (itest : Bool) (i : ℕ) (lastM : MirrorData) (s1 : EState) (q : List ℕ)
    (h : vertOnce s1) (hcnt : s1.mcount.getD i 0 = 0) :
    vertOnce (bodyFinish S MM nbrs itest i lastM s1 q).1 := by
  unfold bodyFinish
  cases hmd : (if itest = true then (s1.search.getD i default).mirrorData else none) with
  | none => exact vertOnce_bodyNoIntersect S MM nbrs i lastM s1 q h hcnt
  | some d2 =>
      have hit : itest = true := by
        cases itest
        · simp at hmd
        · rfl
      have hrec2 : (s1.search.getD i default).mirrorData = some d2 := by
        rw [hit] at hmd
        simpa using hmd
      show vertOnce (if d2.intersected = true then
          queueConnectedVerts nbrs i (mirrorVertSt S MM i d2 false s1) q
        else bodyNoIntersect S MM nbrs i lastM s1 q).1
      split_ifs with hint
      · refine vertOnce_qcv nbrs i _ q ?_
        refine vertOnce_mirrorVertSt h S MM i d2 false hcnt ?_
        intro _
        rw [hrec2]
        exact Option.some_ne_none _
      · exact vertOnce_bodyNoIntersect S MM nbrs i lastM s1 q h hcnt

/-- Each dequeue body of the propagation loop preserves the invariant when
the dequeued vertex is unmirrored on entry (the loop's guard). -/
theorem vertOnce_body (S : MSettings) (MM : MMesh) (nbrs : List (List ℕ))
    (itest : Bool) (i : ℕ) (lastM : MirrorData) (s : EState) (q : List ℕ)
    (h : vertOnce s) (hrec : (s.search.getD i default).mirrorData = none) :
    vertOnce (mirrorConnectedBody S MM nbrs itest i lastM s q).1 := by
  have hcnt : s.mcount.getD i 0 = 0 := vertOnce_count_zero h hrec
  unfold mirrorConnectedBody
  cases hstep : bodyAfterFFT S MM itest i lastM s with
  | error e => exact h
  | ok s1 =>
      obtain ⟨h1, hcnt1⟩ := bodyAfterFFT_ok S MM itest i lastM s s1 h hcnt hstep
      exact vertOnce_bodyFinish S MM nbrs itest i lastM s1 q h1 hcnt1

/-- The propagation loop preserves the invariant. -/
theorem vertOnce_loop (S : MSettings) (MM : MMesh) (nbrs : List (List ℕ))
    (itest : Bool) :
    ∀ (fuel : ℕ) (s : EState) (q : List ℕ), vertOnce s →
      vertOnce (mirrorConnectedLoop S MM nbrs itest fuel s q) := by
  intro fuel
  induction fuel using Nat.strong_induction_on with
  | _ fuel ih =>
      intro s q h
      rw [mirrorConnectedLoop.eq_def]
      split_ifs with hf herr
      · exact h
      · exact h
      · cases q with
        | nil => exact h
        | cons i q' =>
            simp only
            split
            · next hmd =>
                split
                · exact h
                · next cv hcv =>
                    split
                    · exact h
                    · next lastM hlm =>
                        exact ih (fuel - 1) (by omega) _ _
                          (vertOnce_body S MM nbrs itest i lastM s q' h hmd)
            · exact ih (fuel - 1) (by omega) s q' h

theorem vertOnce_mirrorConnected (S : MSettings) (MM : MMesh)
    (nbrs : List (List ℕ)) (initV : ℕ) (itest : Bool) (s : EState)
    (h : vertOnce s) : vertOnce (mirrorConnected S MM nbrs initV itest s) := by
  unfold mirrorConnected
  split_ifs with herr
  · exact h
  · rcases hq : queueConnectedVerts nbrs initV s [] with ⟨s1, q⟩
    have h1 := vertOnce_qcv nbrs initV s [] h
    rw [hq] at h1
    exact vertOnce_loop S MM nbrs itest (vertFuel nbrs) s1 q h1

/-- One seed-loop iteration preserves the invariant. -/
theorem vertOnce_seedStep (S : MSettings) (MM : MMesh) (nbrs : List (List ℕ))
    (s : EState) (i : ℕ) (h : vertOnce s) :
    vertOnce (seedStep S MM nbrs s i) := by
  unfold seedStep
  by_cases herr : s.err = true
  · rw [if_pos herr]
    exact h
  · rw [if_neg herr]
    split
    · exact h
    · next hmd =>
        have hcnt := vertOnce_count_zero h hmd
        split
        · exact h
        · next r heq =>
            have hsr := vertOnce_setRecord h i r hcnt
            split
            · next d =>
                have hsr' : vertOnce (setRecord s i (some d)) := hsr
                have hm : vertOnce (mirrorVertSt S MM i d false (setRecord s i (some d))) := by
                  refine vertOnce_mirrorVertSt hsr' S MM i d false hcnt ?_
                  intro hlen
                  rw [setRecord_getD_self s i _ (by simpa [setRecord] using hlen)]
                  exact Option.some_ne_none _
                split_ifs with hint hco
                · exact hm
                · exact vertOnce_mirrorConnected S MM nbrs i true _ hm
                · exact hsr'
            · exact hsr

theorem vertOnce_seedFold (S : MSettings) (MM : MMesh) (nbrs : List (List ℕ)) :
    ∀ (l : List ℕ) (s : EState), vertOnce s →
      vertOnce (l.foldl (seedStep S MM nbrs) s)
  | [], _, h => h
  | i :: l, s, h =>
      vertOnce_seedFold S MM nbrs l _ (vertOnce_seedStep S MM nbrs s i h)

theorem vertOnce_sweepStep (S : MSettings) (MM : MMesh) (nbrs : List (List ℕ))
    (s : EState) (i : ℕ) (h : vertOnce s) :
    vertOnce (sweepStep S MM nbrs s i) := by
  unfold sweepStep
  split_ifs with herr
  · exact h
  · cases hmd : (s.search.getD i default).mirrorData with
    | some d => exact vertOnce_mirrorConnected S MM nbrs i false s h
    | none => exact h

theorem vertOnce_sweepFold (S : MSettings) (MM : MMesh) (nbrs : List (List ℕ)) :
    ∀ (l : List ℕ) (s : EState), vertOnce s →
      vertOnce (l.foldl (sweepStep S MM nbrs) s)
  | [], _, h => h
  | i :: l, s, h =>
      vertOnce_sweepFold S MM nbrs l _ (vertOnce_sweepStep S MM nbrs s i h)

theorem vertOnce_init (mesh : SMesh) : vertOnce (initState mesh) := by
  refine ⟨by simp [initState], ?_⟩
  intro i
  left
  show ((mesh.verts.map (fun _ => (0 : ℕ))).getD i 0) = 0
  rw [List.getD_eq_getElem?_getD, List.getElem?_map]
  cases mesh.verts[i]? <;> simp

/-- C9: within a single mirror-engine invocation, every source-mesh vertex
position is mutated by `mirrorVert` at most once — the instrumentation
counter of every vertex ends at 0 or 1, and it is 1 only for a vertex whose
mirror record is set, across every mode combination and every code path
(seed loop, propagation, flat fallback, phase-4 sweep). -/
theorem claim9_theorem (S : MSettings) (mesh : SMesh) (MM : MMesh) (i : ℕ) :
    (mirrorMeshRun S mesh MM).2.mcount.getD i 0 ≤ 1
    ∧ ((mirrorMeshRun S mesh MM).2.mcount.getD i 0 = 1 →
        ((mirrorMeshRun S mesh MM).2.search.getD i default).mirrorData ≠ none) := by
  have h : vertOnce (mirrorMeshRun S mesh MM).2 := by
    unfold mirrorMeshRun
    simp only
    have h1 : vertOnce (seedPhase S MM mesh.nbrs mesh.verts.length (initState mesh)) :=
      vertOnce_seedFold S MM mesh.nbrs _ _ (vertOnce_init mesh)
    split_ifs with hc
    · unfold mirrorNonIntersecting
      split_ifs with hpos
      · exact vertOnce_sweepFold S MM mesh.nbrs _ _ h1
      · exact h1
    · exact h1
  rcases h.2 i with h0 | ⟨h1, h2⟩
  · exact ⟨by omega, fun hx => absurd (h0.symm.trans hx) (by norm_num)⟩
  · exact ⟨by omega, fun _ => h2⟩

/-- C9, witness: in the counterexample run, vertex 0's mirror counter is
exactly 1 and its mirror record is set. -/
theorem claim9_witness :
    (mirrorMeshRun cexSettings cexMesh cexMirror).2.mcount.getD 0 0 = 1
    ∧ ((mirrorMeshRun cexSettings cexMesh cexMirror).2.search.getD 0
        default).mirrorData ≠ none := by
  have hc : (mirrorMeshRun cexSettings cexMesh cexMirror).2.mcount.getD 0 0 = 1 := by
    rw [cexRun]
    norm_num [cexS5]
  exact ⟨hc, (claim9_theorem cexSettings cexMesh cexMirror 0).2 hc⟩

/-! ## Projection engine (`src/2.8/projection_ops/proj_data.py`) -/

/-- The static projection settings (`Setting` class, lines 30-44), restricted
to the fields the embedded functions read (`bias`, `smooth`, `scalar.z`,
`depth`). -/
structure PSetting where
  bias : ℚ
  smooth : Bool
  scalarZ : ℚ
  depth : ℚ
deriving DecidableEq, Repr

/-- Modelled from the spec: `clamp` from the missing `funcs_math` module —
"clamp barycentric weights into [0,1]". -/
def clamp (q : ℚ) : ℚ := max 0 (min 1 q)

/-- Modelled from the spec: `averageCo` from the missing `funcs_tri` module —
barycentric interpolation of the face's vertex positions by the weights. -/
def averageCo (face : MTri) (uvw : Vec3) : Vec3 :=
  (uvw.x • face.v0.co) + (uvw.y • face.v1.co) + (uvw.z • face.v2.co)

/-- Modelled from the spec: `averageNorm` from the missing `funcs_tri`
module — barycentric interpolation of the face's vertex normals. -/
def averageNorm (face : MTri) (uvw : Vec3) : Vec3 :=
  (uvw.x • face.v0.normal) + (uvw.y • face.v1.normal) + (uvw.z • face.v2.normal)

/-- `calcVertProjPoint` (lines 323-335). -/
def calcVertProjPoint (S : PSetting) (face : MTri) (uvw : Vec3) (depth0 : ℚ) :
    Vec3 :=
  let depth := depth0 + S.depth
  let co := averageCo face uvw
  if S.smooth then co + depth • averageNorm face uvw
  else co + depth • face.normal

/-- `calcVertProjPointClamp` (lines 336-351): the position `co` is computed
from the **unclamped** weights first; the weights are clamped only in the
smooth branch, for the normal interpolation; the flat branch never clamps. -/
def calcVertProjPointClamp (S : PSetting) (face : MTri) (uvw : Vec3)
    (depth0 : ℚ) : Vec3 :=
  let depth := depth0 + S.depth
  let co := averageCo face uvw
  if S.smooth then
    co + depth • averageNorm face ⟨clamp uvw.x, clamp uvw.y, clamp uvw.z⟩
  else co + depth • face.normal

/-- Modelled from the spec: the partition-grid queries of the missing
`partition_grid` module (`trace_point_uv`, `trace_close_uv`), as abstract
deterministic functions.  `trace_point_uv` returns the barycentric weights
and containing face when one exists; `trace_close_uv` returns the distance,
closest face (none when the grid is empty), edge index and clamped-candidate
weights. -/
structure UVGridModel where
  tracePointUV : Vec2 → Option (Vec3 × MTri)
  traceCloseUV : Vec2 → ℚ × Option MTri × ℕ × Vec3

/-- `ProjectionData.projectVert` (lines 221-244).  `calcUVPoint` abstracts
the bounds mapping (`bound` module not in src/).  Returns the new vertex
position (`none` when the vertex is left unprojected), the selection flag,
and the Python result pair `(success, partial_success)`. -/
def projectVert (S : PSetting) (grid : UVGridModel) (calcUVPoint : Vec3 → Vec3)
    (vertSourceCo : Vec3) : Option Vec3 × Bool × Bool × Bool :=
  let uv := calcUVPoint vertSourceCo
  match grid.tracePointUV ⟨uv.x, uv.y⟩ with
  | some (uvw, face) =>
      (some (calcVertProjPoint S face uvw (uv.z * S.scalarZ)), false, true, true)
  | none =>
      match grid.traceCloseUV ⟨uv.x, uv.y⟩ with
      | (_, none, _, _) => (none, true, false, false)
      | (_, some face, _, uvw) =>
          (some (calcVertProjPointClamp S face uvw (uv.z * S.scalarZ)), true, true, false)

/-! ## Claim C3: the closest-triangle fallback and weight clamping -/

/-- Flat-mode projection settings used by the counterexample. -/
def flatPS : PSetting := ⟨1/100000, false, 1, 0⟩

/-- A grid with no containing triangle anywhere whose closest query returns
`flatTri` with out-of-range weights `(0, 2, -1)`. -/
def gridC3 : UVGridModel :=
  ⟨fun _ => none, fun _ => (0, some flatTri, 0, ⟨0, 2, -1⟩)⟩

/-- C3, counterexample: in flat mode the fallback path interpolates the
projected position with the **unclamped** weights `(0, 2, -1)`, producing
`(2, -1, 0)` — a point that no weights in `[0,1]³` summing to 1 can produce
from this triangle, so the weights used do not lie in `[0,1]³`. -/
theorem claim3_counterexample :
    calcVertProjPointClamp flatPS flatTri ⟨0, 2, -1⟩ 0 = ⟨2, -1, 0⟩
    ∧ (projectVert flatPS gridC3 (fun v => v) ⟨0, 0, 0⟩).1 = some ⟨2, -1, 0⟩
    ∧ ∀ u v w : ℚ, 0 ≤ u → u ≤ 1 → 0 ≤ v → v ≤ 1 → 0 ≤ w → w ≤ 1 →
        u + v + w = 1 → averageCo flatTri ⟨u, v, w⟩ ≠ ⟨2, -1, 0⟩ := by
  refine ⟨?_, ?_, ?_⟩
  · norm_num [calcVertProjPointClamp, averageCo, flatPS, flatTri]
  · norm_num [projectVert, gridC3, calcVertProjPointClamp, averageCo, flatPS, flatTri]
  · intro u v w hu hu1 hv hv1 hw hw1 hsum heq
    simp only [averageCo, flatTri, Vec3.smul_def, Vec3.add_def, Vec3.mk.injEq] at heq
    obtain ⟨-, h2, -⟩ := heq
    norm_num at h2
    linarith

/-- C3, amended: for a fallback vertex the projection does call
`calcVertProjPointClamp`, but the clamping applies only in smooth mode and
only to the normal interpolation: the position is always interpolated with
the unclamped weights, the flat branch is identical to the unclamped
`calcVertProjPoint`, and each clamped component lies in `[0,1]` (the clamped
weights need not sum to 1). -/
theorem claim3_theorem (S : PSetting) (grid : UVGridModel)
    (cUV : Vec3 → Vec3) (vco : Vec3) (face : MTri) (uvw : Vec3) (depth0 : ℚ) :
    (S.smooth = true →
      calcVertProjPointClamp S face uvw depth0 =
        averageCo face uvw +
          (depth0 + S.depth) • averageNorm face ⟨clamp uvw.x, clamp uvw.y, clamp uvw.z⟩)
    ∧ (S.smooth = false →
        calcVertProjPointClamp S face uvw depth0 = calcVertProjPoint S face uvw depth0)
    ∧ (0 ≤ clamp uvw.x ∧ clamp uvw.x ≤ 1 ∧ 0 ≤ clamp uvw.y ∧ clamp uvw.y ≤ 1
        ∧ 0 ≤ clamp uvw.z ∧ clamp uvw.z ≤ 1)
    ∧ (grid.tracePointUV ⟨(cUV vco).x, (cUV vco).y⟩ = none →
        ∀ (dist : ℚ) (f : MTri) (e : ℕ) (uvw2 : Vec3),
          grid.traceCloseUV ⟨(cUV vco).x, (cUV vco).y⟩ = (dist, some f, e, uvw2) →
          (projectVert S grid cUV vco).1 =
            some (calcVertProjPointClamp S f uvw2 ((cUV vco).z * S.scalarZ))) := by
  refine ⟨?_, ?_, ?_, ?_⟩
  · intro hs
    simp [calcVertProjPointClamp, hs]
  · intro hs
    simp [calcVertProjPointClamp, calcVertProjPoint, hs]
  · refine ⟨le_max_left _ _, ?_, le_max_left _ _, ?_, le_max_left _ _, ?_⟩ <;>
      simp [clamp, min_le_iff]
  · intro hnone dist f e uvw2 hclose
    simp only [projectVert, hnone, hclose]

/-- C3, witness: smooth and flat instances of the amended characterisation,
plus the fallback path on the concrete grid. -/
theorem claim3_witness :
    ((⟨1/100000, true, 1, 0⟩ : PSetting).smooth = true →
      calcVertProjPointClamp ⟨1/100000, true, 1, 0⟩ flatTri ⟨0, 2, -1⟩ 0 =
        averageCo flatTri ⟨0, 2, -1⟩ +
          ((0 : ℚ) + (⟨1/100000, true, 1, 0⟩ : PSetting).depth) •
            averageNorm flatTri ⟨clamp 0, clamp 2, clamp (-1)⟩)
    ∧ (flatPS.smooth = false →
        calcVertProjPointClamp flatPS flatTri ⟨0, 2, -1⟩ 0 =
          calcVertProjPoint flatPS flatTri ⟨0, 2, -1⟩ 0)
    ∧ (gridC3.tracePointUV ⟨0, 0⟩ = none
        ∧ (projectVert flatPS gridC3 (fun v => v) ⟨0, 0, 0⟩).1 =
            some (calcVertProjPointClamp flatPS flatTri ⟨0, 2, -1⟩ ((0 : ℚ) * flatPS.scalarZ))) := by
  refine ⟨?_, ?_, ?_, ?_⟩
  · exact fun hs => (claim3_theorem ⟨1/100000, true, 1, 0⟩ gridC3 (fun v => v)
      ⟨0, 0, 0⟩ flatTri ⟨0, 2, -1⟩ 0).1 hs
  · exact fun hs => (claim3_theorem flatPS gridC3 (fun v => v)
      ⟨0, 0, 0⟩ flatTri ⟨0, 2, -1⟩ 0).2.1 hs
  · rfl
  · exact (claim3_theorem flatPS gridC3 (fun v => v) ⟨0, 0, 0⟩ flatTri
      ⟨0, 2, -1⟩ 0).2.2.2 rfl 0 flatTri 0 ⟨0, 2, -1⟩ rfl

/-! ## Claim C6: the corner-trace retry of the bounds solver -/

/-- Modelled from the spec: the data a successful `ray_cast_target` hit
provides to `traceUVTarget` — the hit face's UV area (`uv_Area(face)`) and
the barycentric-averaged texture coordinate (`averageTexCoord(face, uvw)`),
both computed by missing modules; the BVH ray cast itself is the injected
Ray Intersection Provider. -/
structure RayHit where
  uvArea : ℚ
  tex : Vec2
deriving DecidableEq, Repr

/-- The `for x in range(5)` loop of `ProjectionData.traceUVTarget`
(lines 313-322): `x` is the current attempt number, `rem` the attempts that
remain. -/
def traceUVTargetGo (rayCast : Vec3 → Option RayHit) (corner centerPos : Vec3)
    (centerTex : Vec2) (x rem : ℕ) : Option Vec2 :=
  if _h : rem = 0 then none
  else
    let mult := ((1 : ℚ)/2) ^ x
    match rayCast (mult • (corner - centerPos) + centerPos) with
    | some hit =>
        if hit.uvArea > 0 then some ((1/mult) • (hit.tex - centerTex) + centerTex)
        else traceUVTargetGo rayCast corner centerPos centerTex (x + 1) (rem - 1)
    | none => traceUVTargetGo rayCast corner centerPos centerTex (x + 1) (rem - 1)
termination_by rem
decreasing_by all_goals omega

/-- `ProjectionData.traceUVTarget` (lines 301-322). -/
def traceUVTarget (rayCast : Vec3 → Option RayHit) (corner centerPos : Vec3)
    (centerTex : Vec2) : Option Vec2 :=
  traceUVTargetGo rayCast corner centerPos centerTex 0 5

/-- The retry policy exactly as the claim words it (the spec-side definition
for the refinement comparison): try `k = 0..4` at
`(corner-center)*0.5^k + center`; accept the first attempt hitting a face
with UV area > 0; rescale its UV offset from the center UV by `1/0.5^k`;
`none` when all five attempts fail. -/
def traceUVTargetSpec (rayCast : Vec3 → Option RayHit) (corner centerPos : Vec3)
    (centerTex : Vec2) : Option Vec2 :=
  (List.range 5).findSome? (fun k =>
    match rayCast ((((1 : ℚ)/2) ^ k) • (corner - centerPos) + centerPos) with
    | some hit =>
        if hit.uvArea > 0 then
          some ((1/(((1 : ℚ)/2) ^ k)) • (hit.tex - centerTex) + centerTex)
        else none
    | none => none)

/-- Modelled from the spec: `findMinMax` from the missing `funcs_blender`
module — the componentwise min/max corners of the mesh's vertex positions. -/
def findMinMax (verts : List Vec3) : Vec3 × Vec3 :=
  verts.foldl
    (fun (mm : Vec3 × Vec3) v =>
      (⟨min mm.1.x v.x, min mm.1.y v.y, min mm.1.z v.z⟩,
        ⟨max mm.2.x v.x, max mm.2.y v.y, max mm.2.z v.z⟩))
    (⟨largeFloat, largeFloat, largeFloat⟩, ⟨-largeFloat, -largeFloat, -largeFloat⟩)

/-- A 3x3 matrix as its three columns (`Matrix.col[0..2]`). -/
structure Mat3 where
  c0 : Vec3
  c1 : Vec3
  c2 : Vec3
deriving DecidableEq, Repr

/-- The four world-space corners `topL, topR, botR, botL` built by
`ProjectionData.calculateBounds` (lines 266-269). -/
def boundsCorners (verts : List Vec3) (alignedAxis : Mat3) (meshPos : Vec3) :
    List Vec3 :=
  let mm := findMinMax verts
  [mm.1.x • alignedAxis.c0 + mm.2.y • alignedAxis.c1 + meshPos,
   mm.2.x • alignedAxis.c0 + mm.2.y • alignedAxis.c1 + meshPos,
   mm.2.x • alignedAxis.c0 + mm.1.y • alignedAxis.c1 + meshPos,
   mm.1.x • alignedAxis.c0 + mm.1.y • alignedAxis.c1 + meshPos]

/-- Stand-in for the oriented-rectangle value built by the missing `bound`
module; only its construction success matters here. -/
structure BoundsRes where
  topL : Vec2
  topR : Vec2
  botR : Vec2
  botL : Vec2
  centerTex : Vec2
deriving DecidableEq, Repr

/-- `ProjectionData.calculateBounds` (lines 248-289): project the center
(must hit; its UV area is not checked), then trace each corner through the
retry loop — the first failing corner aborts the whole computation — and
hand the corner UVs to `Bounds.From_Corners` (missing module, injected as
`fromCorners`). -/
def calculateBounds (rayCast : Vec3 → Option RayHit)
    (fromCorners : Vec2 → Vec2 → Vec2 → Vec2 → Vec2 → Option BoundsRes)
    (verts : List Vec3) (alignedAxis : Mat3) (meshPos : Vec3) :
    Option BoundsRes :=
  match rayCast meshPos with
  | none => none
  | some ch =>
      match (boundsCorners verts alignedAxis meshPos).mapM
          (fun c => traceUVTarget rayCast c meshPos ch.tex) with
      | some [t0, t1, t2, t3] => fromCorners t0 t1 t2 t3 ch.tex
      | _ => none

/-- The loop suffix at attempts `x, x+1, …, x+rem-1` agrees with a
`findSome?` scan over those attempt numbers. -/
theorem traceUVTargetGo_eq_findSome (rayCast : Vec3 → Option RayHit)
    (corner centerPos : Vec3) (centerTex : Vec2) :
    ∀ (rem x : ℕ),
      traceUVTargetGo rayCast corner centerPos centerTex x rem =
        (List.range' x rem).findSome? (fun k =>
          match rayCast ((((1 : ℚ)/2) ^ k) • (corner - centerPos) + centerPos) with
          | some hit =>
              if hit.uvArea > 0 then
                some ((1/(((1 : ℚ)/2) ^ k)) • (hit.tex - centerTex) + centerTex)
              else none
          | none => none) := by
  intro rem
  induction rem using Nat.strong_induction_on with
  | _ rem ih =>
      intro x
      rw [traceUVTargetGo.eq_def]
      split_ifs with h0
      · subst h0
        simp
      · obtain ⟨rem1, rfl⟩ : ∃ r, rem = r + 1 := ⟨rem - 1, by omega⟩
        rw [List.range'_succ, List.findSome?_cons]
        simp only [Nat.add_sub_cancel]
        cases hrc : rayCast ((((1 : ℚ)/2) ^ x) • (corner - centerPos) + centerPos) with
        | none =>
            simp only
            exact ih rem1 (by omega) (x + 1)
        | some hit =>
            simp only
            split_ifs with harea
            · rfl
            · exact ih rem1 (by omega) (x + 1)

/-- An `Option`-valued `mapM` succeeds only when the function succeeds on
every element. -/
theorem mapM_ne_none {α β : Type} (f : α → Option β) :
    ∀ (l : List α), (l.mapM f).isSome = true → ∀ c ∈ l, f c ≠ none
  | [], _, c, hc => absurd hc (List.not_mem_nil c)
  | a :: l, h, c, hc => by
      rw [List.mapM_cons] at h
      cases hfa : f a with
      | none => rw [hfa] at h; simp at h
      | some b =>
          rw [hfa] at h
          rcases List.mem_cons.1 hc with rfl | hc'
          · rw [hfa]; exact Option.some_ne_none b
          · refine mapM_ne_none f l ?_ c hc'
            cases hml : l.mapM f with
            | none => rw [hml] at h; simp at h
            | some bs => simp [hml]

/-- C6: the corner trace implements exactly the claimed retry policy (first
attempt at the corner itself, then `(corner-center)*0.5^k + center` for
`k = 1..4`, five attempts in all, accepting only hits whose face has UV area
> 0 and rescaling the successful attempt's UV offset from the center UV by
`1/0.5^k`; `none` when all five attempts fail); and whenever any corner's
trace returns `none` the whole bounds computation returns `none`, so the
mesh is skipped with a report. -/
theorem claim6_theorem (rayCast : Vec3 → Option RayHit)
    (fromCorners : Vec2 → Vec2 → Vec2 → Vec2 → Vec2 → Option BoundsRes)
    (verts : List Vec3) (alignedAxis : Mat3) (meshPos : Vec3)
    (corner centerPos : Vec3) (centerTex : Vec2) :
    traceUVTarget rayCast corner centerPos centerTex =
      traceUVTargetSpec rayCast corner centerPos centerTex
    ∧ (calculateBounds rayCast fromCorners verts alignedAxis meshPos ≠ none →
        ∃ ch, rayCast meshPos = some ch ∧
          ∀ c ∈ boundsCorners verts alignedAxis meshPos,
            traceUVTarget rayCast c meshPos ch.tex ≠ none) := by
  constructor
  · rw [traceUVTarget, traceUVTargetSpec, List.range_eq_range']
    exact traceUVTargetGo_eq_findSome rayCast corner centerPos centerTex 5 0
  · intro hne
    unfold calculateBounds at hne
    cases hrc : rayCast meshPos with
    | none => rw [hrc] at hne; exact absurd rfl hne
    | some ch =>
        rw [hrc] at hne
        replace hne :
            (match (boundsCorners verts alignedAxis meshPos).mapM
                (fun c => traceUVTarget rayCast c meshPos ch.tex) with
              | some [t0, t1, t2, t3] => fromCorners t0 t1 t2 t3 ch.tex
              | _ => none) ≠ none := hne
        refine ⟨ch, rfl, ?_⟩
        refine mapM_ne_none _ (boundsCorners verts alignedAxis meshPos) ?_
        cases hm : (boundsCorners verts alignedAxis meshPos).mapM
            (fun c => traceUVTarget rayCast c meshPos ch.tex) with
        | none => rw [hm] at hne; exact absurd rfl hne
        | some ts => simp [hm]

/-- A ray oracle that always hits a face of UV area 1 whose texture
coordinate is the cast point's footprint. -/
def c6RayCast : Vec3 → Option RayHit := fun p => some ⟨1, ⟨p.x, p.y⟩⟩

/-- A corner combiner that always succeeds. -/
def c6FromCorners : Vec2 → Vec2 → Vec2 → Vec2 → Vec2 → Option BoundsRes :=
  fun a b c d e => some ⟨a, b, c, d, e⟩

/-- The identity mesh basis. -/
def c6Axis : Mat3 := ⟨⟨1, 0, 0⟩, ⟨0, 1, 0⟩, ⟨0, 0, 1⟩⟩

/-- Under the always-hit oracle, every corner trace succeeds on attempt 0
and returns the corner's footprint. -/
theorem c6_trace (c : Vec3) :
    traceUVTarget c6RayCast c ⟨0, 0, 0⟩ ⟨0, 0⟩ = some ⟨c.x, c.y⟩ := by
  rw [traceUVTarget, traceUVTargetGo.eq_def]
  norm_num [c6RayCast]

/-- The bounds corners of the two-vertex example mesh. -/
theorem c6_corners :
    boundsCorners [⟨0, 0, 0⟩, ⟨2, 2, 0⟩] c6Axis ⟨0, 0, 0⟩ =
      [⟨0, 2, 0⟩, ⟨2, 2, 0⟩, ⟨2, 0, 0⟩, ⟨0, 0, 0⟩] := by
  norm_num [boundsCorners, findMinMax, c6Axis, largeFloat]

/-- The full bounds computation of the example succeeds. -/
theorem c6_eval : calculateBounds c6RayCast c6FromCorners
    [⟨0, 0, 0⟩, ⟨2, 2, 0⟩] c6Axis ⟨0, 0, 0⟩ =
    some ⟨⟨0, 2⟩, ⟨2, 2⟩, ⟨2, 0⟩, ⟨0, 0⟩, ⟨0, 0⟩⟩ := by
  have hc : c6RayCast ⟨0, 0, 0⟩ = some ⟨1, ⟨0, 0⟩⟩ := rfl
  rw [calculateBounds, hc, c6_corners]
  show (match ([⟨0, 2, 0⟩, ⟨2, 2, 0⟩, ⟨2, 0, 0⟩, (⟨0, 0, 0⟩ : Vec3)]).mapM
      (fun c => traceUVTarget c6RayCast c ⟨0, 0, 0⟩ ⟨0, 0⟩) with
    | some [t0, t1, t2, t3] => c6FromCorners t0 t1 t2 t3 ⟨0, 0⟩
    | _ => none) = some ⟨⟨0, 2⟩, ⟨2, 2⟩, ⟨2, 0⟩, ⟨0, 0⟩, ⟨0, 0⟩⟩
  rw [List.mapM_cons, c6_trace, List.mapM_cons, c6_trace, List.mapM_cons,
    c6_trace, List.mapM_cons, c6_trace, List.mapM_nil]
  rfl

theorem claim6_witness :
    calculateBounds c6RayCast c6FromCorners
        [⟨0, 0, 0⟩, ⟨2, 2, 0⟩] c6Axis ⟨0, 0, 0⟩ ≠ none
    ∧ ∃ ch, c6RayCast ⟨0, 0, 0⟩ = some ch ∧
        ∀ c ∈ boundsCorners [⟨0, 0, 0⟩, ⟨2, 2, 0⟩] c6Axis ⟨0, 0, 0⟩,
          traceUVTarget c6RayCast c ⟨0, 0, 0⟩ ch.tex ≠ none := by
  have hne : calculateBounds c6RayCast c6FromCorners
      [⟨0, 0, 0⟩, ⟨2, 2, 0⟩] c6Axis ⟨0, 0, 0⟩ ≠ none := by
    rw [c6_eval]; exact Option.some_ne_none _
  exact ⟨hne,
    (claim6_theorem c6RayCast c6FromCorners [⟨0, 0, 0⟩, ⟨2, 2, 0⟩] c6Axis
      ⟨0, 0, 0⟩ ⟨0, 0, 0⟩ ⟨0, 0, 0⟩ ⟨0, 0⟩).2 hne⟩

/-! ## Claim C7: Z-up axis selection -/

/-- Modelled from the spec: `sign` from the missing `funcs_math` module —
the usual signum. -/
def sign (a : ℚ) : ℚ := if 0 < a then 1 else if a < 0 then -1 else 0

/-- Column access for `Mat3` (`Matrix.col[j]`). -/
def Mat3.col (m : Mat3) : Fin 3 → Vec3
  | 0 => m.c0
  | 1 => m.c1
  | 2 => m.c2

/-- `zUpFindAxis` (proj_data.py lines 353-375): replace the camera-facing
mesh basis column by the sign-corrected remaining axis and recompute the
third column as the cross product of the mesh X and Y axes. -/
def zUpFindAxis (meshAxis camAxis : Mat3) : Mat3 :=
  let xDot := meshAxis.c0.dot camAxis.c2
  let yDot := meshAxis.c1.dot camAxis.c2
  let zDot := meshAxis.c2.dot camAxis.c2
  if |xDot| > max |yDot| |zDot| then
    ⟨sign xDot • meshAxis.c2, meshAxis.c1, meshAxis.c0.cross meshAxis.c1⟩
  else if |yDot| > |zDot| then
    ⟨meshAxis.c0, sign yDot • meshAxis.c2, meshAxis.c0.cross meshAxis.c1⟩
  else
    ⟨(-sign zDot) • meshAxis.c0, meshAxis.c1, meshAxis.c0.cross meshAxis.c1⟩

/-- The dot product of each mesh basis column with the viewing axis
(`camAxis.col[2]`). -/
def zUpDot (meshAxis camAxis : Mat3) (j : Fin 3) : ℚ :=
  (meshAxis.col j).dot camAxis.c2

theorem Vec3.one_smul_self (v : Vec3) : (1 : ℚ) • v = v := by
  show Vec3.smul 1 v = v
  simp [Vec3.smul]

theorem sign_pm (a : ℚ) (ha : a ≠ 0) : sign a = 1 ∨ sign a = -1 := by
  rcases lt_trichotomy a 0 with h | h | h
  · right
    rw [sign, if_neg (by linarith), if_pos h]
  · exact absurd h ha
  · left
    rw [sign, if_pos h]

/-- C7: provided the mesh basis is not entirely perpendicular to the
viewing axis, `zUpFindAxis` replaces exactly one basis column `rep`: the
one whose dot product with the viewing axis is largest in magnitude (the
camera-facing axis), with exact-magnitude ties resolved by keeping the
earlier axes (priority X, then Y, then Z, enforced by the strict `>`
comparisons); both remaining (most perpendicular) mesh axes survive, up to
a factor of 1 or -1, as the footprint columns of the result; and the third
result column is always the cross product of the mesh X and Y axes. -/
theorem claim7_theorem (m cam : Mat3)
    (h : ¬(zUpDot m cam 0 = 0 ∧ zUpDot m cam 1 = 0 ∧ zUpDot m cam 2 = 0)) :
    ∃ rep : Fin 3,
      (∀ j, |zUpDot m cam j| ≤ |zUpDot m cam rep|) ∧
      (∀ j, rep < j → |zUpDot m cam j| < |zUpDot m cam rep|) ∧
      (∀ j, j ≠ rep → ∃ e : ℚ, (e = 1 ∨ e = -1) ∧
        (e • m.col j = (zUpFindAxis m cam).c0 ∨
          e • m.col j = (zUpFindAxis m cam).c1)) ∧
      (zUpFindAxis m cam).c2 = m.c0.cross m.c1 := by
  have hd0 : zUpDot m cam 0 = m.c0.dot cam.c2 := rfl
  have hd1 : zUpDot m cam 1 = m.c1.dot cam.c2 := rfl
  have hd2 : zUpDot m cam 2 = m.c2.dot cam.c2 := rfl
  by_cases h1 : |m.c0.dot cam.c2| > max |m.c1.dot cam.c2| |m.c2.dot cam.c2|
  · have hr : zUpFindAxis m cam =
        ⟨sign (m.c0.dot cam.c2) • m.c2, m.c1, m.c0.cross m.c1⟩ := by
      rw [zUpFindAxis, if_pos h1]
    have hne : m.c0.dot cam.c2 ≠ 0 := by
      intro h0
      rw [h0] at h1
      simp only [abs_zero] at h1
      exact absurd h1 (not_lt.2 (le_max_iff.2 (Or.inl (abs_nonneg _))))
    refine ⟨0, ?_, ?_, ?_, by rw [hr]⟩
    · intro j
      fin_cases j
      · exact le_refl _
      · show |zUpDot m cam 1| ≤ |zUpDot m cam 0|
        rw [hd1, hd0]
        exact le_of_lt (lt_of_le_of_lt (le_max_left _ _) h1)
      · show |zUpDot m cam 2| ≤ |zUpDot m cam 0|
        rw [hd2, hd0]
        exact le_of_lt (lt_of_le_of_lt (le_max_right _ _) h1)
    · intro j hj
      fin_cases j
      · exact absurd hj (by decide)
      · show |zUpDot m cam 1| < |zUpDot m cam 0|
        rw [hd1, hd0]
        exact lt_of_le_of_lt (le_max_left _ _) h1
      · show |zUpDot m cam 2| < |zUpDot m cam 0|
        rw [hd2, hd0]
        exact lt_of_le_of_lt (le_max_right _ _) h1
    · intro j hj
      fin_cases j
      · exact absurd rfl hj
      · exact ⟨1, Or.inl rfl, Or.inr (by rw [Vec3.one_smul_self, hr]; rfl)⟩
      · exact ⟨sign (m.c0.dot cam.c2), sign_pm _ hne, Or.inl (by rw [hr]; rfl)⟩
  · by_cases h2 : |m.c1.dot cam.c2| > |m.c2.dot cam.c2|
    · have hr : zUpFindAxis m cam =
          ⟨m.c0, sign (m.c1.dot cam.c2) • m.c2, m.c0.cross m.c1⟩ := by
        rw [zUpFindAxis]
        rw [if_neg h1, if_pos h2]
      have hne : m.c1.dot cam.c2 ≠ 0 := by
        intro h0
        rw [h0] at h2
        simp only [abs_zero] at h2
        exact absurd h2 (not_lt.2 (abs_nonneg _))
      have hmax : max |m.c1.dot cam.c2| |m.c2.dot cam.c2| =
          |m.c1.dot cam.c2| := max_eq_left (le_of_lt h2)
      have h0le : |m.c0.dot cam.c2| ≤ |m.c1.dot cam.c2| := by
        rw [← hmax]
        exact not_lt.1 h1
      refine ⟨1, ?_, ?_, ?_, by rw [hr]⟩
      · intro j
        fin_cases j
        · show |zUpDot m cam 0| ≤ |zUpDot m cam 1|
          rw [hd0, hd1]; exact h0le
        · exact le_refl _
        · show |zUpDot m cam 2| ≤ |zUpDot m cam 1|
          rw [hd2, hd1]; exact le_of_lt h2
      · intro j hj
        fin_cases j
        · exact absurd hj (by decide)
        · exact absurd hj (by decide)
        · show |zUpDot m cam 2| < |zUpDot m cam 1|
          rw [hd2, hd1]; exact h2
      · intro j hj
        fin_cases j
        · exact ⟨1, Or.inl rfl, Or.inl (by rw [Vec3.one_smul_self, hr]; rfl)⟩
        · exact absurd rfl hj
        · exact ⟨sign (m.c1.dot cam.c2), sign_pm _ hne, Or.inr (by rw [hr]; rfl)⟩
    · have hr : zUpFindAxis m cam =
          ⟨(-sign (m.c2.dot cam.c2)) • m.c0, m.c1, m.c0.cross m.c1⟩ := by
        rw [zUpFindAxis]
        rw [if_neg h1, if_neg h2]
      have h12 : |m.c1.dot cam.c2| ≤ |m.c2.dot cam.c2| := not_lt.1 h2
      have hmax : max |m.c1.dot cam.c2| |m.c2.dot cam.c2| =
          |m.c2.dot cam.c2| := max_eq_right h12
      have h02 : |m.c0.dot cam.c2| ≤ |m.c2.dot cam.c2| := by
        rw [← hmax]
        exact not_lt.1 h1
      have hne : m.c2.dot cam.c2 ≠ 0 := by
        intro h0
        refine h ⟨?_, ?_, ?_⟩
        · rw [hd0]
          rw [h0] at h02
          simpa [abs_nonpos_iff] using h02
        · rw [hd1]
          rw [h0] at h12
          simpa [abs_nonpos_iff] using h12
        · rw [hd2]; exact h0
      have hse : -sign (m.c2.dot cam.c2) = 1 ∨ -sign (m.c2.dot cam.c2) = -1 := by
        rcases sign_pm _ hne with hs | hs
        · right; rw [hs]
        · left; rw [hs]; norm_num
      refine ⟨2, ?_, ?_, ?_, by rw [hr]⟩
      · intro j
        fin_cases j
        · show |zUpDot m cam 0| ≤ |zUpDot m cam 2|
          rw [hd0, hd2]; exact h02
        · show |zUpDot m cam 1| ≤ |zUpDot m cam 2|
          rw [hd1, hd2]; exact h12
        · exact le_refl _
      · intro j hj
        fin_cases j <;> exact absurd hj (by decide)
      · intro j hj
        fin_cases j
        · exact ⟨-sign (m.c2.dot cam.c2), hse, Or.inl (by rw [hr]; rfl)⟩
        · exact ⟨1, Or.inl rfl, Or.inr (by rw [Vec3.one_smul_self, hr]; rfl)⟩
        · exact absurd rfl hj

/-- The identity mesh/camera basis used to witness the axis selection. -/
def idMat : Mat3 := ⟨⟨1, 0, 0⟩, ⟨0, 1, 0⟩, ⟨0, 0, 1⟩⟩

theorem claim7_witness :
    (¬(zUpDot idMat idMat 0 = 0 ∧ zUpDot idMat idMat 1 = 0 ∧
        zUpDot idMat idMat 2 = 0))
    ∧ ∃ rep : Fin 3,
      (∀ j, |zUpDot idMat idMat j| ≤ |zUpDot idMat idMat rep|) ∧
      (∀ j, rep < j → |zUpDot idMat idMat j| < |zUpDot idMat idMat rep|) ∧
      (∀ j, j ≠ rep → ∃ e : ℚ, (e = 1 ∨ e = -1) ∧
        (e • idMat.col j = (zUpFindAxis idMat idMat).c0 ∨
          e • idMat.col j = (zUpFindAxis idMat idMat).c1)) ∧
      (zUpFindAxis idMat idMat).c2 = idMat.c0.cross idMat.c1 := by
  have hnz : ¬(zUpDot idMat idMat 0 = 0 ∧ zUpDot idMat idMat 1 = 0 ∧
      zUpDot idMat idMat 2 = 0) := by
    intro hc
    have := hc.2.2
    rw [show zUpDot idMat idMat 2 = 1 by norm_num [zUpDot, Mat3.col, idMat, Vec3.dot]] at this
    exact one_ne_zero this
  exact ⟨hnz, claim7_theorem idMat idMat hnz⟩

/-! ## Claim C8: determinism of both engines -/

/-- C8: both engines are deterministic — two runs of the mirror engine on
equal settings, source mesh and mirror mesh produce equal results (count and
full final state, hence all output vertex positions), and two runs of the
vertex projection on equal settings, grid, bounds mapping and source
position produce equal results.  In the embedding both engines are pure
functions of their inputs (every selection — closest triangle, seed face,
grid candidate — is computed by a fixed enumeration order, with no ambient
state or randomness), so equal inputs force equal outputs. -/
theorem claim8_theorem (S S' : MSettings) (mesh mesh' : SMesh) (MM MM' : MMesh)
    (PS PS' : PSetting) (grid grid' : UVGridModel) (cUV cUV' : Vec3 → Vec3)
    (vco vco' : Vec3)
    (hS : S = S') (hmesh : mesh = mesh') (hMM : MM = MM')
    (hPS : PS = PS') (hgrid : grid = grid') (hcUV : cUV = cUV')
    (hvco : vco = vco') :
    mirrorMeshRun S mesh MM = mirrorMeshRun S' mesh' MM' ∧
    projectVert PS grid cUV vco = projectVert PS' grid' cUV' vco' := by
  subst hS hmesh hMM hPS hgrid hcUV hvco
  exact ⟨rfl, rfl⟩

theorem claim8_witness :
    mirrorMeshRun defaultMSettings ⟨[], []⟩ ⟨[], []⟩ =
      mirrorMeshRun defaultMSettings ⟨[], []⟩ ⟨[], []⟩ ∧
    projectVert ⟨1/10000, false, 1, 0⟩
        ⟨fun _ => none, fun _ => (0, none, 0, ⟨0, 0, 0⟩)⟩ (fun v => v) ⟨0, 0, 0⟩ =
      projectVert ⟨1/10000, false, 1, 0⟩
        ⟨fun _ => none, fun _ => (0, none, 0, ⟨0, 0, 0⟩)⟩ (fun v => v) ⟨0, 0, 0⟩ :=
  claim8_theorem defaultMSettings defaultMSettings ⟨[], []⟩ ⟨[], []⟩ ⟨[], []⟩
    ⟨[], []⟩ ⟨1/10000, false, 1, 0⟩ ⟨1/10000, false, 1, 0⟩
    ⟨fun _ => none, fun _ => (0, none, 0, ⟨0, 0, 0⟩)⟩
    ⟨fun _ => none, fun _ => (0, none, 0, ⟨0, 0, 0⟩)⟩
    (fun v => v) (fun v => v) ⟨0, 0, 0⟩ ⟨0, 0, 0⟩
    rfl rfl rfl rfl rfl rfl rfl
